import Mathlib

/-!
# Geometric core of the ray tracer: matrices, hit tests, scene queries

Shallow embedding of `Matrix.cpp`, `Utils.h` and `Scene.cpp`.

Scalars.  The C++ `float` is embedded in two ways, both with exact arithmetic on finite
values (rounding and overflow are not part of the embedding):

* the matrix code only adds and multiplies, so it is embedded over an arbitrary scalar
  type `α` and its laws are proved over a commutative ring or field;
* the hit tests divide (possibly by zero) and compare against interval bounds that may be
  infinite, so they are embedded over `Flt K`: the values of an ordered field `K` extended
  with the IEEE-754 special values `+∞`, `-∞` and `NaN`, with the IEEE rules for them
  (a comparison with `NaN` is false, `x / 0` is infinite for `x ≠ 0`, `0 / 0` is `NaN`).

The library square root is a parameter `sq : K → K` of the functions that call it.
-/

namespace dae

/-! ## Scalars with IEEE-754 special values -/

/-- A `float` value: a finite value of the field `K`, or one of the IEEE-754 special values. -/
inductive Flt (K : Type) where
  | fin (q : K)
  | pinf
  | ninf
  | nan
  deriving DecidableEq

namespace Flt

variable {K : Type} [LinearOrderedField K]

/-- Unary minus of IEEE-754. -/
def neg : Flt K → Flt K
  | fin a => fin (-a)
  | pinf => ninf
  | ninf => pinf
  | nan => nan

/-- Addition of IEEE-754 (exact on finite values); `∞ + (-∞)` is `NaN`. -/
def add : Flt K → Flt K → Flt K
  | fin a, fin b => fin (a + b)
  | fin _, pinf => pinf
  | fin _, ninf => ninf
  | pinf, fin _ => pinf
  | pinf, pinf => pinf
  | ninf, fin _ => ninf
  | ninf, ninf => ninf
  | _, _ => nan

/-- The infinity with the sign of `a` when `pos`, with the opposite sign otherwise;
`NaN` for `a = 0`. -/
def signedInf (a : K) (pos : Bool) : Flt K :=
  if a = 0 then nan else if (0 < a) = pos then pinf else ninf

/-- Multiplication of IEEE-754 (exact on finite values); `0 * ∞` is `NaN`. -/
def mul : Flt K → Flt K → Flt K
  | fin a, fin b => fin (a * b)
  | fin a, pinf => signedInf a true
  | fin a, ninf => signedInf a false
  | pinf, fin b => signedInf b true
  | ninf, fin b => signedInf b false
  | pinf, pinf => pinf
  | pinf, ninf => ninf
  | ninf, pinf => ninf
  | ninf, ninf => pinf
  | _, _ => nan

/-- Division of IEEE-754 (exact on finite values).  The sign of a zero is not represented:
a zero divisor is taken as `+0`, so `x / 0` is the infinity with the sign of `x` for `x ≠ 0`
(with a divisor `-0` the floating-point result is the opposite infinity), and `0 / 0` is
`NaN`. -/
def div : Flt K → Flt K → Flt K
  | fin a, fin b => if b = 0 then signedInf a true else fin (a / b)
  | fin _, pinf => fin 0
  | fin _, ninf => fin 0
  | pinf, fin b => if 0 ≤ b then pinf else ninf
  | ninf, fin b => if 0 ≤ b then ninf else pinf
  | _, _ => nan

/-- The C++ `<` on floats: false as soon as one side is `NaN`. -/
def blt : Flt K → Flt K → Bool
  | fin a, fin b => decide (a < b)
  | fin _, pinf => true
  | ninf, fin _ => true
  | ninf, pinf => true
  | _, _ => false

/-- The C++ `<=` on floats: false as soon as one side is `NaN`. -/
def ble : Flt K → Flt K → Bool
  | fin a, fin b => decide (a ≤ b)
  | fin _, pinf => true
  | ninf, fin _ => true
  | ninf, pinf => true
  | pinf, pinf => true
  | ninf, ninf => true
  | _, _ => false

/-- The C++ `==` on floats: `NaN` is not equal to itself. -/
def beq : Flt K → Flt K → Bool
  | fin a, fin b => decide (a = b)
  | pinf, pinf => true
  | ninf, ninf => true
  | _, _ => false

/-- The library `sqrt`: `sq` on non-negative finite values, `NaN` on negative ones. -/
def sqrt (sq : K → K) : Flt K → Flt K
  | fin a => if a < 0 then nan else fin (sq a)
  | pinf => pinf
  | _ => nan

instance : Neg (Flt K) := ⟨neg⟩
instance : Add (Flt K) := ⟨add⟩
instance : Sub (Flt K) := ⟨fun a b => add a (neg b)⟩
instance : Mul (Flt K) := ⟨mul⟩
instance : Div (Flt K) := ⟨div⟩
instance : Zero (Flt K) := ⟨fin 0⟩
instance : One (Flt K) := ⟨fin 1⟩
instance : LT (Flt K) := ⟨fun a b => blt a b = true⟩
instance : LE (Flt K) := ⟨fun a b => ble a b = true⟩
instance : BEq (Flt K) := ⟨beq⟩
instance (a b : Flt K) : Decidable (a < b) := inferInstanceAs (Decidable (blt a b = true))
instance (a b : Flt K) : Decidable (a ≤ b) := inferInstanceAs (Decidable (ble a b = true))

end Flt

/-! ## Vectors -/

/-- The `Vector3` of the maths headers: three scalars. -/
structure Vector3 (α : Type) where
  x : α
  y : α
  z : α
  deriving DecidableEq

/-- The `Vector4` of the maths headers: four scalars. -/
structure Vector4 (α : Type) where
  x : α
  y : α
  z : α
  w : α
  deriving DecidableEq

namespace Vector3

variable {α : Type}

/-- Component-wise image of a vector. -/
def map {β : Type} (f : α → β) (v : Vector3 α) : Vector3 β := ⟨f v.x, f v.y, f v.z⟩

/-- Modelled from the spec: `Vector3::operator+` (Vector3.h is not among the sources),
component-wise sum. -/
def add [Add α] (u v : Vector3 α) : Vector3 α := ⟨u.x + v.x, u.y + v.y, u.z + v.z⟩

/-- Modelled from the spec: `Vector3::operator-` (Vector3.h is not among the sources),
component-wise difference. -/
def sub [Sub α] (u v : Vector3 α) : Vector3 α := ⟨u.x - v.x, u.y - v.y, u.z - v.z⟩

/-- Modelled from the spec: scalar times vector, `s * v` and `v * s` of Vector3.h. -/
def scale [Mul α] (s : α) (v : Vector3 α) : Vector3 α := ⟨s * v.x, s * v.y, s * v.z⟩

/-- Modelled from the spec: `Vector3::Dot` (Vector3.h is not among the sources). -/
def Dot [Add α] [Mul α] (u v : Vector3 α) : α := u.x * v.x + u.y * v.y + u.z * v.z

/-- Modelled from the spec: `Vector3::Cross` (Vector3.h is not among the sources). -/
def Cross [Sub α] [Mul α] (u v : Vector3 α) : Vector3 α :=
  ⟨u.y * v.z - u.z * v.y, u.z * v.x - u.x * v.z, u.x * v.y - u.y * v.x⟩

instance [Add α] : Add (Vector3 α) := ⟨add⟩
instance [Sub α] : Sub (Vector3 α) := ⟨sub⟩
instance [Zero α] : Zero (Vector3 α) := ⟨⟨0, 0, 0⟩⟩

/-- The constant `Vector3::UnitX`. -/
def UnitX [Zero α] [One α] : Vector3 α := ⟨1, 0, 0⟩

/-- The constant `Vector3::UnitY`. -/
def UnitY [Zero α] [One α] : Vector3 α := ⟨0, 1, 0⟩

/-- The constant `Vector3::UnitZ`. -/
def UnitZ [Zero α] [One α] : Vector3 α := ⟨0, 0, 1⟩

end Vector3

namespace Vector4

variable {α : Type}

/-- The constructor `Vector4{v, w}` from a `Vector3` and a 4th component. -/
def ofVector3 (v : Vector3 α) (w : α) : Vector4 α := ⟨v.x, v.y, v.z, w⟩

/-- Modelled from the spec: `Vector4::Dot` (Vector4.h is not among the sources). -/
def Dot [Add α] [Mul α] (u v : Vector4 α) : α :=
  u.x * v.x + u.y * v.y + u.z * v.z + u.w * v.w

/-- Modelled from the spec: `Vector4::operator[]` as a read, index 0..3 for x, y, z, w. -/
def get (v : Vector4 α) : Fin 4 → α
  | 0 => v.x
  | 1 => v.y
  | 2 => v.z
  | 3 => v.w

/-- Modelled from the spec: `Vector4::operator[]` as a write, index 0..3 for x, y, z, w. -/
def set (v : Vector4 α) (i : Fin 4) (a : α) : Vector4 α :=
  match i with
  | 0 => { v with x := a }
  | 1 => { v with y := a }
  | 2 => { v with z := a }
  | 3 => { v with w := a }

/-- Modelled from the spec: `Vector4::operator==`, exact component-wise comparison. -/
def eqv [BEq α] (u v : Vector4 α) : Bool :=
  u.x == v.x && u.y == v.y && u.z == v.z && u.w == v.w

end Vector4

/-! ## Matrix.cpp -/

/-- The class `Matrix`: the array `Vector4 data[4]` (x-axis, y-axis, z-axis, translation). -/
structure Matrix (α : Type) where
  data0 : Vector4 α
  data1 : Vector4 α
  data2 : Vector4 α
  data3 : Vector4 α
  deriving DecidableEq

namespace Matrix

variable {α : Type}

/-- `Matrix::operator[]` as a read of `data[index]`. -/
def get (m : Matrix α) : Fin 4 → Vector4 α
  | 0 => m.data0
  | 1 => m.data1
  | 2 => m.data2
  | 3 => m.data3

/-- `Matrix::operator[]` as a write of `data[index]`. -/
def set (m : Matrix α) (i : Fin 4) (v : Vector4 α) : Matrix α :=
  match i with
  | 0 => { m with data0 := v }
  | 1 => { m with data1 := v }
  | 2 => { m with data2 := v }
  | 3 => { m with data3 := v }

/-- The assignment `m[r][c] = a`. -/
def setAt (m : Matrix α) (r c : Fin 4) (a : α) : Matrix α := m.set r ((m.get r).set c a)

/-- The value-initialised `Matrix result{}`.  Matrix.h is not among the sources; the identity
is taken, and both loops that start from it overwrite all sixteen components. -/
def init [Zero α] [One α] : Matrix α :=
  ⟨⟨1, 0, 0, 0⟩, ⟨0, 1, 0, 0⟩, ⟨0, 0, 1, 0⟩, ⟨0, 0, 0, 1⟩⟩

/-- `Matrix::Matrix(const Vector4&, const Vector4&, const Vector4&, const Vector4&)`. -/
def ofColumns (xAxis yAxis zAxis t : Vector4 α) : Matrix α := ⟨xAxis, yAxis, zAxis, t⟩

/-- `Matrix::Matrix(const Vector3&, const Vector3&, const Vector3&, const Vector3&)`. -/
def ofAxes [Zero α] [One α] (xAxis yAxis zAxis t : Vector3 α) : Matrix α :=
  ofColumns (Vector4.ofVector3 xAxis 0) (Vector4.ofVector3 yAxis 0)
    (Vector4.ofVector3 zAxis 0) (Vector4.ofVector3 t 1)

/-- `Matrix::TransformVector(float, float, float)`. -/
def TransformVector3 [Add α] [Mul α] (m : Matrix α) (x y z : α) : Vector3 α :=
  ⟨m.data0.x * x + m.data1.x * y + m.data2.x * z,
   m.data0.y * x + m.data1.y * y + m.data2.y * z,
   m.data0.z * x + m.data1.z * y + m.data2.z * z⟩

/-- `Matrix::TransformVector(const Vector3&)`. -/
def TransformVector [Add α] [Mul α] (m : Matrix α) (v : Vector3 α) : Vector3 α :=
  m.TransformVector3 v.x v.y v.z

/-- `Matrix::TransformPoint(float, float, float)`. -/
def TransformPoint3 [Add α] [Mul α] (m : Matrix α) (x y z : α) : Vector3 α :=
  ⟨m.data0.x * x + m.data1.x * y + m.data2.x * z + m.data3.x,
   m.data0.y * x + m.data1.y * y + m.data2.y * z + m.data3.y,
   m.data0.z * x + m.data1.z * y + m.data2.z * z + m.data3.z⟩

/-- `Matrix::TransformPoint(const Vector3&)`. -/
def TransformPoint [Add α] [Mul α] (m : Matrix α) (p : Vector3 α) : Vector3 α :=
  m.TransformPoint3 p.x p.y p.z

/-- The index range of the loops `for (int i{ 0 }; i < 4; ++i)`. -/
def idx : List (Fin 4) := [0, 1, 2, 3]

/-- The in-place `Matrix::Transpose()`: the double loop `result[r][c] = data[c][r]` into a
fresh `result`, whose four columns are then copied back into `data`. -/
def Transpose [Zero α] [One α] (m : Matrix α) : Matrix α :=
  let result := idx.foldl (fun res r =>
    idx.foldl (fun res c => res.setAt r c ((m.get c).get r)) res) init
  ⟨result.get 0, result.get 1, result.get 2, result.get 3⟩

/-- The static `Matrix::Transpose(const Matrix&)`: copy, then transpose the copy in place. -/
def TransposeOf [Zero α] [One α] (m : Matrix α) : Matrix α :=
  let out := m
  out.Transpose

/-- `Matrix::operator*`: `result[r][c] = Vector4::Dot(data[r], m_transposed[c])`. -/
def mul [Zero α] [One α] [Add α] [Mul α] (a m : Matrix α) : Matrix α :=
  let m_transposed := TransposeOf m
  idx.foldl (fun res r =>
    idx.foldl (fun res c =>
      res.setAt r c (Vector4.Dot (a.get r) (m_transposed.get c))) res) init

/-- `Matrix::operator*=`: the same double loop, written into `data` and read from a copy. -/
def mulAssign [Zero α] [One α] [Add α] [Mul α] (a m : Matrix α) : Matrix α :=
  let copy := a
  let m_transposed := TransposeOf m
  idx.foldl (fun data r =>
    idx.foldl (fun data c =>
      data.setAt r c (Vector4.Dot (copy.get r) (m_transposed.get c))) data) a

/-- `Matrix::operator==`: the four columns compared with `Vector4::operator==`. -/
def eqv [BEq α] (a m : Matrix α) : Bool :=
  Vector4.eqv a.data0 m.data0 && Vector4.eqv a.data1 m.data1
    && Vector4.eqv a.data2 m.data2 && Vector4.eqv a.data3 m.data3

/-- Affine form: 4th component 0 in the three axis columns, 1 in the translation column. -/
def IsAffine [Zero α] [One α] (m : Matrix α) : Prop :=
  m.data0.w = 0 ∧ m.data1.w = 0 ∧ m.data2.w = 0 ∧ m.data3.w = 1

instance [Zero α] [One α] [Add α] [Mul α] : Mul (Matrix α) := ⟨mul⟩

/-- `Matrix::CreateTranslation(const Vector3&)`. -/
def CreateTranslation [Zero α] [One α] (t : Vector3 α) : Matrix α :=
  ofAxes Vector3.UnitX Vector3.UnitY Vector3.UnitZ t

/-- `Matrix::CreateScale(float, float, float)`. -/
def CreateScale [Zero α] [One α] (sx sy sz : α) : Matrix α :=
  ofAxes ⟨sx, 0, 0⟩ ⟨0, sy, 0⟩ ⟨0, 0, sz⟩ ⟨0, 0, 0⟩

/-- `Matrix::CreateScale(const Vector3&)`. -/
def CreateScaleV [Zero α] [One α] (s : Vector3 α) : Matrix α :=
  CreateScale s.x s.y s.z

/-- `Matrix::CreateTranslation(float, float, float)`. -/
def CreateTranslation3 [Zero α] [One α] (x y z : α) : Matrix α :=
  ofAxes Vector3.UnitX Vector3.UnitY Vector3.UnitZ ⟨x, y, z⟩

/-- `Matrix::CreateRotationX(float pitch)`; `cos` and `sin` stand for the library functions
`std::cosf` and `std::sinf`, and `{ }` is the zero vector. -/
def CreateRotationX [Zero α] [One α] [Neg α] (cos sin : α → α) (pitch : α) : Matrix α :=
  let cosPitch := cos pitch
  let sinPitch := sin pitch
  ofAxes Vector3.UnitX ⟨0, cosPitch, sinPitch⟩ ⟨0, -sinPitch, cosPitch⟩ ⟨0, 0, 0⟩

/-- `Matrix::CreateRotationY(float yaw)`. -/
def CreateRotationY [Zero α] [One α] [Neg α] (cos sin : α → α) (yaw : α) : Matrix α :=
  let cosYaw := cos yaw
  let sinYaw := sin yaw
  ofAxes ⟨cosYaw, 0, -sinYaw⟩ Vector3.UnitY ⟨sinYaw, 0, cosYaw⟩ ⟨0, 0, 0⟩

/-- `Matrix::CreateRotationZ(float roll)`. -/
def CreateRotationZ [Zero α] [One α] [Neg α] (cos sin : α → α) (roll : α) : Matrix α :=
  let cosRoll := cos roll
  let sinRoll := sin roll
  ofAxes ⟨cosRoll, sinRoll, 0⟩ ⟨-sinRoll, cosRoll, 0⟩ Vector3.UnitZ ⟨0, 0, 0⟩

/-- `Matrix::CreateRotation(const Vector3& r)`: `rotationZ * rotationY * rotationX`. -/
def CreateRotation [Zero α] [One α] [Neg α] [Add α] [Mul α] (cos sin : α → α)
    (r : Vector3 α) : Matrix α :=
  let rotationX := CreateRotationX cos sin r.x
  let rotationY := CreateRotationY cos sin r.y
  let rotationZ := CreateRotationZ cos sin r.z
  rotationZ * rotationY * rotationX

/-- `Matrix::CreateRotation(float angle, const Vector3& axis)`, the axis-angle builder. -/
def CreateRotationAxis [Zero α] [One α] [Add α] [Sub α] [Mul α] (cos sin : α → α)
    (angle : α) (axis : Vector3 α) : Matrix α :=
  let cosA := cos angle
  let sinA := sin angle
  ofAxes
    ⟨axis.x * axis.x * (1 - cosA) + cosA, axis.x * axis.y * (1 - cosA) - axis.z * sinA,
      axis.x * axis.z * (1 - cosA) + axis.y * sinA⟩
    ⟨axis.x * axis.y * (1 - cosA) + axis.z * sinA, axis.y * axis.y * (1 - cosA) + cosA,
      axis.y * axis.z * (1 - cosA) - axis.x * sinA⟩
    ⟨axis.x * axis.z * (1 - cosA) - axis.y * sinA, axis.x * axis.z * (1 - cosA) + axis.x * sinA,
      axis.z * axis.z * (1 - cosA) + cosA⟩
    ⟨0, 0, 0⟩

/-- `Matrix::CreateRotation(float pitch, float yaw, float roll)`. -/
def CreateRotation3 [Zero α] [One α] [Neg α] [Add α] [Mul α] (cos sin : α → α)
    (pitch yaw roll : α) : Matrix α :=
  CreateRotation cos sin ⟨pitch, yaw, roll⟩

end Matrix

/-! ## DataTypes.h

The header is not among the sources: the records below carry the fields that `Utils.h` and
`Scene.cpp` read and write. -/

/-- Modelled from the spec: the `Sphere` record (origin, radius, material index). -/
structure Sphere (α : Type) where
  origin : Vector3 α
  radius : α
  materialIndex : Nat
  deriving DecidableEq

/-- Modelled from the spec: the `Plane` record (a point of the plane, normal, material index). -/
structure Plane (α : Type) where
  origin : Vector3 α
  normal : Vector3 α
  materialIndex : Nat
  deriving DecidableEq

/-- Modelled from the spec: the `Ray` record (origin, direction, parametric interval). -/
structure Ray (α : Type) where
  origin : Vector3 α
  direction : Vector3 α
  min : α
  max : α
  deriving DecidableEq

/-- Modelled from the spec: the `HitRecord` record. -/
structure HitRecord (α : Type) where
  origin : Vector3 α
  normal : Vector3 α
  t : α
  didHit : Bool
  materialIndex : Nat
  deriving DecidableEq

/-- A sphere with real components as a sphere of floats. -/
def Sphere.toFlt {K : Type} (s : Sphere K) : Sphere (Flt K) :=
  ⟨s.origin.map Flt.fin, Flt.fin s.radius, s.materialIndex⟩

/-- A plane with real components as a plane of floats. -/
def Plane.toFlt {K : Type} (p : Plane K) : Plane (Flt K) :=
  ⟨p.origin.map Flt.fin, p.normal.map Flt.fin, p.materialIndex⟩

/-- The ray with real origin and direction and the interval `[tmin, tmax]` of floats. -/
def Ray.ofReal {K : Type} (origin direction : Vector3 K) (tmin tmax : Flt K) : Ray (Flt K) :=
  ⟨origin.map Flt.fin, direction.map Flt.fin, tmin, tmax⟩

/-- Modelled from the spec: the value-initialised `HitRecord temp{}`: no hit, `t = +∞`,
zero vectors, material index 0. -/
def HitRecord.init {K : Type} [LinearOrderedField K] : HitRecord (Flt K) :=
  ⟨0, 0, Flt.pinf, false, 0⟩

/-- Modelled from the spec: `Vector3::Magnitude` (Vector3.h is not among the sources),
the square root of the dot product of the vector with itself. -/
def Vector3.Magnitude {K : Type} [LinearOrderedField K] (sq : K → K) (v : Vector3 (Flt K)) :
    Flt K :=
  Flt.sqrt sq (Vector3.Dot v v)

/-- Modelled from the spec: `Vector3::Normalized` (Vector3.h is not among the sources),
every component divided by the magnitude. -/
def Vector3.Normalized {K : Type} [LinearOrderedField K] (sq : K → K) (v : Vector3 (Flt K)) :
    Vector3 (Flt K) :=
  let m := Vector3.Magnitude sq v
  ⟨v.x / m, v.y / m, v.z / m⟩

/-- Modelled from the spec: vector times scalar, `v * s` of Vector3.h. -/
def Vector3.scaleR {α : Type} [Mul α] (v : Vector3 α) (s : α) : Vector3 α :=
  ⟨v.x * s, v.y * s, v.z * s⟩

/-! ## Utils.h -/

namespace GeometryUtils

variable {K : Type} [LinearOrderedField K]

/-- `GeometryUtils::HitTest_Sphere(sphere, ray, hitRecord, ignoreHitRecord)`: the returned
pair is the `bool` result and the hit record after the call. -/
def HitTest_Sphere (sq : K → K) (sphere : Sphere (Flt K)) (ray : Ray (Flt K))
    (hitRecord : HitRecord (Flt K)) (ignoreHitRecord : Bool) : Bool × HitRecord (Flt K) :=
  let a := Vector3.Dot ray.direction ray.direction
  let b := Vector3.Dot (Vector3.scale (Flt.fin 2) ray.direction) (ray.origin - sphere.origin)
  let c := Vector3.Dot (ray.origin - sphere.origin) (ray.origin - sphere.origin)
    - sphere.radius * sphere.radius
  let d := b * b - Flt.fin 4 * a * c
  if d ≤ Flt.fin 0 then
    (false, { hitRecord with didHit := false })
  else
    let t := (-b - Flt.sqrt sq d) / Flt.fin 2 * a
    let t := if t > ray.max ∨ t < ray.min then (-b + Flt.sqrt sq d) / Flt.fin 2 * a else t
    if t > ray.max ∨ t < ray.min then
      (false, { hitRecord with didHit := false })
    else if ignoreHitRecord then
      (true, hitRecord)
    else
      let origin := ray.origin + Vector3.scale t ray.direction
      (true, { didHit := true
               materialIndex := sphere.materialIndex
               origin := origin
               t := t
               normal := Vector3.Normalized sq (origin - sphere.origin) })

/-- `GeometryUtils::HitTest_Sphere(sphere, ray)`: the overload without a hit record. -/
def HitTest_Sphere_any (sq : K → K) (sphere : Sphere (Flt K)) (ray : Ray (Flt K)) : Bool :=
  let temp : HitRecord (Flt K) := HitRecord.init
  (HitTest_Sphere sq sphere ray temp true).1

/-- `GeometryUtils::HitTest_Plane(plane, ray, hitRecord, ignoreHitRecord)`: the returned
pair is the `bool` result and the hit record after the call. -/
def HitTest_Plane (plane : Plane (Flt K)) (ray : Ray (Flt K))
    (hitRecord : HitRecord (Flt K)) (ignoreHitRecord : Bool) : Bool × HitRecord (Flt K) :=
  let t := Vector3.Dot (plane.origin - ray.origin) plane.normal
    / Vector3.Dot ray.direction plane.normal
  if t < ray.min ∨ t > ray.max then
    (false, hitRecord)
  else if ignoreHitRecord then
    (true, hitRecord)
  else
    let p := ray.origin + Vector3.scaleR ray.direction t
    (true, { didHit := true
             materialIndex := plane.materialIndex
             origin := p
             t := t
             normal := plane.normal })

/-- `GeometryUtils::HitTest_Plane(plane, ray)`: the overload without a hit record. -/
def HitTest_Plane_any (plane : Plane (Flt K)) (ray : Ray (Flt K)) : Bool :=
  let temp : HitRecord (Flt K) := HitRecord.init
  (HitTest_Plane plane ray temp true).1

end GeometryUtils

/-! ## Scene.cpp -/

/-- The geometry members of the class `Scene`. -/
structure Scene (α : Type) where
  m_SphereGeometries : List (Sphere α)
  m_PlaneGeometries : List (Plane α)

namespace Scene

variable {K : Type} [LinearOrderedField K]

/-- The update `if (temp.t < closestHitRecord.t) { closestHitRecord = temp; }` that both loops
of `Scene::GetClosestHit` perform on a successful hit test. -/
def keepCloser (closestHitRecord temp : HitRecord (Flt K)) : HitRecord (Flt K) :=
  if temp.t < closestHitRecord.t then temp else closestHitRecord

/-- One iteration of the sphere loop of `Scene::GetClosestHit`. -/
def closestSphereStep (sq : K → K) (ray : Ray (Flt K)) (closestHitRecord : HitRecord (Flt K))
    (sphere : Sphere (Flt K)) : HitRecord (Flt K) :=
  let temp : HitRecord (Flt K) := HitRecord.init
  let r := GeometryUtils.HitTest_Sphere sq sphere ray temp false
  if r.1 then keepCloser closestHitRecord r.2 else closestHitRecord

/-- One iteration of the plane loop of `Scene::GetClosestHit`. -/
def closestPlaneStep (ray : Ray (Flt K)) (closestHitRecord : HitRecord (Flt K))
    (plane : Plane (Flt K)) : HitRecord (Flt K) :=
  let temp : HitRecord (Flt K) := HitRecord.init
  let r := GeometryUtils.HitTest_Plane plane ray temp false
  if r.1 then keepCloser closestHitRecord r.2 else closestHitRecord

/-- `Scene::GetClosestHit(ray, closestHit)`: the value written to `closestHit`. -/
def GetClosestHit (sq : K → K) (scene : Scene (Flt K)) (ray : Ray (Flt K)) :
    HitRecord (Flt K) :=
  let closestHitRecord : HitRecord (Flt K) := HitRecord.init
  let closestHitRecord :=
    scene.m_SphereGeometries.foldl (closestSphereStep sq ray) closestHitRecord
  let closestHitRecord :=
    scene.m_PlaneGeometries.foldl (closestPlaneStep ray) closestHitRecord
  closestHitRecord

/-- `Scene::DoesHit(ray)`: true at the first sphere, then the first plane, that is hit. -/
def DoesHit (sq : K → K) (scene : Scene (Flt K)) (ray : Ray (Flt K)) : Bool :=
  if scene.m_SphereGeometries.any (fun sphere => GeometryUtils.HitTest_Sphere_any sq sphere ray)
  then true
  else if scene.m_PlaneGeometries.any (fun plane => GeometryUtils.HitTest_Plane_any plane ray)
  then true
  else false

/-- A scene with real components as a scene of floats. -/
def toFlt (scene : Scene K) : Scene (Flt K) :=
  ⟨scene.m_SphereGeometries.map Sphere.toFlt, scene.m_PlaneGeometries.map Plane.toFlt⟩

end Scene

/-! ## Quantities named by the specification -/

section SpecQuantities

variable {K : Type} [LinearOrderedField K]

/-- A square root on the non-negative values of `K`, as the real `sqrt` is. -/
def IsSqrt (sq : K → K) : Prop := ∀ x, 0 ≤ x → 0 ≤ sq x ∧ sq x * sq x = x

/-- The coefficient `a = dir·dir` of the sphere quadratic. -/
def quadA (dir : Vector3 K) : K := Vector3.Dot dir dir

/-- The coefficient `b = 2·dir·(origin − center)` of the sphere quadratic. -/
def quadB (s : Sphere K) (o dir : Vector3 K) : K := 2 * Vector3.Dot dir (o - s.origin)

/-- The coefficient `c = (origin − center)·(origin − center) − radius²` of the sphere quadratic. -/
def quadC (s : Sphere K) (o : Vector3 K) : K :=
  Vector3.Dot (o - s.origin) (o - s.origin) - s.radius * s.radius

/-- The discriminant `d = b² − 4ac`. -/
def discr (s : Sphere K) (o dir : Vector3 K) : K :=
  quadB s o dir * quadB s o dir - 4 * quadA dir * quadC s o

/-- The smaller root as the specification words it, `t₋ = (−b − √d) / (2a)`. -/
def specRootLo (sq : K → K) (s : Sphere K) (o dir : Vector3 K) : K :=
  (-quadB s o dir - sq (discr s o dir)) / (2 * quadA dir)

/-- The larger root as the specification words it, `t₊ = (−b + √d) / (2a)`. -/
def specRootHi (sq : K → K) (s : Sphere K) (o dir : Vector3 K) : K :=
  (-quadB s o dir + sq (discr s o dir)) / (2 * quadA dir)

/-- The first candidate of the code, `(-b - sqrt(d)) / 2 * a`. -/
def rootLo (sq : K → K) (s : Sphere K) (o dir : Vector3 K) : K :=
  (-quadB s o dir - sq (discr s o dir)) / 2 * quadA dir

/-- The second candidate of the code, `(-b + sqrt(d)) / 2 * a`. -/
def rootHi (sq : K → K) (s : Sphere K) (o dir : Vector3 K) : K :=
  (-quadB s o dir + sq (discr s o dir)) / 2 * quadA dir

/-- The value of `t` after the first range check of `HitTest_Sphere`. -/
def chosenT (sq : K → K) (s : Sphere K) (o dir : Vector3 K) (tmin tmax : Flt K) : K :=
  if Flt.fin (rootLo sq s o dir) > tmax ∨ Flt.fin (rootLo sq s o dir) < tmin
  then rootHi sq s o dir else rootLo sq s o dir

/-- The plane parameter `t = ((planeOrigin − rayOrigin)·normal) / (rayDir·normal)`. -/
def planeT (p : Plane K) (o dir : Vector3 K) : K :=
  Vector3.Dot (p.origin - o) p.normal / Vector3.Dot dir p.normal

/-- The hit records of the primitives whose hit test succeeds, in evaluation order:
spheres in insertion order, then planes in insertion order. -/
def hitRecords (sq : K → K) (scene : Scene (Flt K)) (ray : Ray (Flt K)) :
    List (HitRecord (Flt K)) :=
  scene.m_SphereGeometries.filterMap (fun sphere =>
      let r := GeometryUtils.HitTest_Sphere sq sphere ray HitRecord.init false
      if r.1 then some r.2 else none)
    ++ scene.m_PlaneGeometries.filterMap (fun plane =>
      let r := GeometryUtils.HitTest_Plane plane ray HitRecord.init false
      if r.1 then some r.2 else none)

end SpecQuantities

/-! ## Scene materials -/

namespace Scene

/-- The member `m_Materials` after the constructor `Scene::Scene()`: the single default
material.  Materials are opaque to the core, so their type `M` is arbitrary. -/
def initMaterials {M : Type} (defaultMaterial : M) : List M := [defaultMaterial]

/-- `Scene::AddMaterial(pMaterial)`, on the member `m_Materials` that it reads and writes:
the list after `push_back` and the returned
`static_cast<unsigned char>(m_Materials.size() - 1)`. -/
def AddMaterial {M : Type} (m_Materials : List M) (pMaterial : M) : List M × Nat :=
  let m_Materials := m_Materials ++ [pMaterial]
  (m_Materials, (m_Materials.length - 1) % 256)

/-- A sequence of `AddMaterial` calls: the final material list and the returned indices in
call order. -/
def AddMaterials {M : Type} (m_Materials : List M) : List M → List M × List Nat
  | [] => (m_Materials, [])
  | p :: ps =>
    let r := AddMaterial m_Materials p
    let rest := AddMaterials r.1 ps
    (rest.1, r.2 :: rest.2)

end Scene

/-! ## Lights (Utils.h, namespace LightUtils) -/

/-- Modelled from the spec: the `ColorRGB` record (ColorRGB.h is not among the sources). -/
structure ColorRGB (α : Type) where
  r : α
  g : α
  b : α
  deriving DecidableEq

/-- Modelled from the spec: `ColorRGB::operator*(float)`, component-wise. -/
def ColorRGB.scale {α : Type} [Mul α] (c : ColorRGB α) (s : α) : ColorRGB α :=
  ⟨c.r * s, c.g * s, c.b * s⟩

/-- Modelled from the spec: `ColorRGB::operator/(float)`, component-wise. -/
def ColorRGB.divide {α : Type} [Div α] (c : ColorRGB α) (s : α) : ColorRGB α :=
  ⟨c.r / s, c.g / s, c.b / s⟩

/-- Modelled from the spec: the enumeration `LightType`. -/
inductive LightType where
  | Point
  | Directional
  deriving DecidableEq

/-- Modelled from the spec: the `Light` record. -/
structure Light (α : Type) where
  origin : Vector3 α
  direction : Vector3 α
  color : ColorRGB α
  intensity : α
  type : LightType

/-- A point light with real components as a light of floats. -/
def Light.pointOfReal {K : Type} [LinearOrderedField K] (origin : Vector3 K) (intensity : K)
    (color : ColorRGB K) : Light (Flt K) :=
  ⟨origin.map Flt.fin, 0, ⟨Flt.fin color.r, Flt.fin color.g, Flt.fin color.b⟩,
    Flt.fin intensity, LightType.Point⟩

/-- A directional light with real components as a light of floats. -/
def Light.directionalOfReal {K : Type} [LinearOrderedField K] (direction : Vector3 K)
    (intensity : K) (color : ColorRGB K) : Light (Flt K) :=
  ⟨0, direction.map Flt.fin, ⟨Flt.fin color.r, Flt.fin color.g, Flt.fin color.b⟩,
    Flt.fin intensity, LightType.Directional⟩

namespace LightUtils

variable {K : Type} [LinearOrderedField K]

/-- `LightUtils::GetDirectionToLight(light, origin)`. -/
def GetDirectionToLight (light : Light (Flt K)) (origin : Vector3 (Flt K)) : Vector3 (Flt K) :=
  match light.type with
  | LightType.Point => light.origin - origin
  | LightType.Directional => 0

/-- `LightUtils::GetRadiance(light, target)`. -/
def GetRadiance (light : Light (Flt K)) (target : Vector3 (Flt K)) : ColorRGB (Flt K) :=
  match light.type with
  | LightType.Point =>
    (light.color.scale light.intensity).divide
      (Vector3.Dot (light.origin - target) (light.origin - target))
  | LightType.Directional => light.color.scale light.intensity

/-- `LightUtils::GetObservedArea(light, dirToLight, normal)`. -/
def GetObservedArea (light : Light (Flt K)) (dirToLight normal : Vector3 (Flt K)) : Flt K :=
  match light.type with
  | LightType.Point => Vector3.Dot dirToLight normal
  | LightType.Directional => 0

end LightUtils

/-! ## Further quantities named by the specification -/

/-- The Rodrigues rotation of `v` about the axis `k` by the angle with cosine `c` and sine
`s`, as the specification words it: `v·c + (k × v)·s + k·(k·v)·(1 − c)`. -/
def rodrigues {K : Type} [Add K] [Sub K] [Mul K] [One K] (c s : K) (k v : Vector3 K) :
    Vector3 K :=
  Vector3.scaleR v c + Vector3.scaleR (Vector3.Cross k v) s
    + Vector3.scaleR k (Vector3.Dot k v * (1 - c))

/-- The direct row-by-column product of the specification: entry `[r][c]` is the sum over
`k` in 0..3 of `A[r][k] · B[k][c]`. -/
def directProductEntry {K : Type} [CommRing K] (A B : Matrix K) (r c : Fin 4) : K :=
  Finset.univ.sum (fun k : Fin 4 => (A.get r).get k * (B.get k).get c)

/-! ## Lemmas on scalars and vectors -/

namespace Flt

theorem ite_fin {K : Type} (c : Prop) [Decidable c] (x y : K) :
    (if c then fin x else fin y : Flt K) = fin (if c then x else y) :=
  (apply_ite fin c x y).symm

variable {K : Type} [LinearOrderedField K]

@[simp] theorem fin_add_fin (a b : K) : (fin a + fin b : Flt K) = fin (a + b) := rfl

@[simp] theorem fin_sub_fin (a b : K) : (fin a - fin b : Flt K) = fin (a - b) := by
  show add (fin a) (neg (fin b)) = fin (a - b)
  simp [add, neg, sub_eq_add_neg]

@[simp] theorem fin_mul_fin (a b : K) : (fin a * fin b : Flt K) = fin (a * b) := rfl

@[simp] theorem neg_fin (a : K) : (-(fin a) : Flt K) = fin (-a) := rfl

theorem fin_div_fin (a : K) {b : K} (hb : b ≠ 0) : (fin a / fin b : Flt K) = fin (a / b) := by
  show div (fin a) (fin b) = fin (a / b)
  simp [div, hb]

theorem fin_div_zero (a : K) : (fin a / fin 0 : Flt K) = signedInf a true := by
  show div (fin a) (fin 0) = signedInf a true
  simp [div]

@[simp] theorem fin_div_two (a : K) : (fin a / fin 2 : Flt K) = fin (a / 2) :=
  fin_div_fin a two_ne_zero

theorem lt_def (a b : Flt K) : a < b ↔ blt a b = true := Iff.rfl

theorem le_def (a b : Flt K) : a ≤ b ↔ ble a b = true := Iff.rfl

@[simp] theorem fin_lt_fin (a b : K) : (fin a < fin b) ↔ a < b := by
  simp [lt_def, blt]

@[simp] theorem fin_le_fin (a b : K) : (fin a ≤ fin b) ↔ a ≤ b := by
  simp [le_def, ble]

@[simp] theorem fin_lt_pinf (a : K) : fin a < (pinf : Flt K) := by
  simp [lt_def, blt]

@[simp] theorem not_lt_nan (a : Flt K) : ¬ a < (nan : Flt K) := by
  cases a <;> simp [lt_def, blt]

@[simp] theorem not_nan_lt (a : Flt K) : ¬ (nan : Flt K) < a := by
  cases a <;> simp [lt_def, blt]

@[simp] theorem not_pinf_lt (a : Flt K) : ¬ (pinf : Flt K) < a := by
  cases a <;> simp [lt_def, blt]

@[simp] theorem not_lt_ninf (a : Flt K) : ¬ a < (ninf : Flt K) := by
  cases a <;> simp [lt_def, blt]

theorem sqrt_fin (sq : K → K) {a : K} (h : 0 ≤ a) : sqrt sq (fin a) = fin (sq a) := by
  simp [sqrt, not_lt.mpr h]

/-- On values other than `NaN` the order is total. -/
theorem flt_le_of_not_lt {a b : Flt K} (ha : a ≠ nan) (hb : b ≠ nan) (h : ¬ a < b) : b ≤ a := by
  cases a <;> cases b <;> simp_all [lt_def, le_def, blt, ble]

theorem flt_not_lt_of_le {a b : Flt K} (h : b ≤ a) : ¬ a < b := by
  cases a <;> cases b <;> simp_all [lt_def, le_def, blt, ble]

theorem flt_lt_trans {a b c : Flt K} (h₁ : a < b) (h₂ : b < c) : a < c := by
  cases a <;> cases b <;> cases c <;> simp_all [lt_def, blt]
  exact lt_trans h₁ h₂

theorem flt_lt_of_lt_of_le {a b c : Flt K} (h₁ : a < b) (h₂ : b ≤ c) : a < c := by
  cases a <;> cases b <;> cases c <;> simp_all [lt_def, le_def, blt, ble]
  exact lt_of_lt_of_le h₁ h₂

theorem flt_le_of_lt {a b : Flt K} (h : a < b) : a ≤ b := by
  cases a <;> cases b <;> simp_all [lt_def, le_def, blt, ble]
  exact h.le

end Flt

namespace Vector3

variable {K : Type} [LinearOrderedField K]

theorem sub_def (u v : Vector3 K) : u - v = ⟨u.x - v.x, u.y - v.y, u.z - v.z⟩ := rfl

theorem add_def (u v : Vector3 K) : u + v = ⟨u.x + v.x, u.y + v.y, u.z + v.z⟩ := rfl

@[simp] theorem map_fin_sub (u v : Vector3 K) :
    u.map Flt.fin - v.map Flt.fin = (u - v).map Flt.fin := by
  show Vector3.sub _ _ = Vector3.map _ (Vector3.sub _ _)
  simp [Vector3.sub, Vector3.map]

@[simp] theorem map_fin_add (u v : Vector3 K) :
    u.map Flt.fin + v.map Flt.fin = (u + v).map Flt.fin := by
  show Vector3.add _ _ = Vector3.map _ (Vector3.add _ _)
  simp [Vector3.add, Vector3.map]

@[simp] theorem dot_map_fin (u v : Vector3 K) :
    Dot (u.map Flt.fin) (v.map Flt.fin) = Flt.fin (Dot u v) := by
  simp [Dot, Vector3.map]

@[simp] theorem scale_map_fin (k : K) (v : Vector3 K) :
    scale (Flt.fin k) (v.map Flt.fin) = (scale k v).map Flt.fin := by
  simp [scale, Vector3.map]

@[simp] theorem scaleR_map_fin (k : K) (v : Vector3 K) :
    scaleR (v.map Flt.fin) (Flt.fin k) = (scaleR v k).map Flt.fin := by
  simp [scaleR, Vector3.map]

theorem dot_scale (k : K) (u v : Vector3 K) : Dot (scale k u) v = k * Dot u v := by
  simp only [Dot, scale]
  ring

end Vector3

/-! ## Matrix laws -/

namespace Matrix

/-- The double loop of `operator*` unrolled: entry `[r][c]` is the dot product of `data[r]` of
the left factor with the vector of the `c`-th components of the right factor. -/
theorem mul_entries {α : Type} [Zero α] [One α] [Add α] [Mul α] (a m : Matrix α) :
    a * m =
      ⟨⟨Vector4.Dot a.data0 ⟨m.data0.x, m.data1.x, m.data2.x, m.data3.x⟩,
        Vector4.Dot a.data0 ⟨m.data0.y, m.data1.y, m.data2.y, m.data3.y⟩,
        Vector4.Dot a.data0 ⟨m.data0.z, m.data1.z, m.data2.z, m.data3.z⟩,
        Vector4.Dot a.data0 ⟨m.data0.w, m.data1.w, m.data2.w, m.data3.w⟩⟩,
       ⟨Vector4.Dot a.data1 ⟨m.data0.x, m.data1.x, m.data2.x, m.data3.x⟩,
        Vector4.Dot a.data1 ⟨m.data0.y, m.data1.y, m.data2.y, m.data3.y⟩,
        Vector4.Dot a.data1 ⟨m.data0.z, m.data1.z, m.data2.z, m.data3.z⟩,
        Vector4.Dot a.data1 ⟨m.data0.w, m.data1.w, m.data2.w, m.data3.w⟩⟩,
       ⟨Vector4.Dot a.data2 ⟨m.data0.x, m.data1.x, m.data2.x, m.data3.x⟩,
        Vector4.Dot a.data2 ⟨m.data0.y, m.data1.y, m.data2.y, m.data3.y⟩,
        Vector4.Dot a.data2 ⟨m.data0.z, m.data1.z, m.data2.z, m.data3.z⟩,
        Vector4.Dot a.data2 ⟨m.data0.w, m.data1.w, m.data2.w, m.data3.w⟩⟩,
       ⟨Vector4.Dot a.data3 ⟨m.data0.x, m.data1.x, m.data2.x, m.data3.x⟩,
        Vector4.Dot a.data3 ⟨m.data0.y, m.data1.y, m.data2.y, m.data3.y⟩,
        Vector4.Dot a.data3 ⟨m.data0.z, m.data1.z, m.data2.z, m.data3.z⟩,
        Vector4.Dot a.data3 ⟨m.data0.w, m.data1.w, m.data2.w, m.data3.w⟩⟩⟩ := rfl

/-- The double loop of `Transpose` unrolled. -/
theorem transpose_entries {α : Type} [Zero α] [One α] (m : Matrix α) :
    m.Transpose =
      ⟨⟨m.data0.x, m.data1.x, m.data2.x, m.data3.x⟩, ⟨m.data0.y, m.data1.y, m.data2.y, m.data3.y⟩,
       ⟨m.data0.z, m.data1.z, m.data2.z, m.data3.z⟩, ⟨m.data0.w, m.data1.w, m.data2.w, m.data3.w⟩⟩ :=
  rfl

theorem eqv_self {K : Type} [DecidableEq K] (m : Matrix K) : eqv m m = true := by
  simp [eqv, Vector4.eqv]

/-- C1, as stated, fails: with `A` the translation by `(1,0,0)` and `B` the scaling by 2, both
in affine form, `(A * B).TransformPoint` sends the origin to `(2,0,0)` (translate, then
scale) while `A.TransformPoint (B.TransformPoint p)` gives `(1,0,0)`. -/
theorem mul_TransformPoint_not_right_first :
    IsAffine (CreateTranslation (⟨1, 0, 0⟩ : Vector3 ℚ))
    ∧ IsAffine (CreateScale (2 : ℚ) 2 2)
    ∧ (CreateTranslation (⟨1, 0, 0⟩ : Vector3 ℚ) * CreateScale 2 2 2).TransformPoint ⟨0, 0, 0⟩
        = ⟨2, 0, 0⟩
    ∧ (CreateTranslation (⟨1, 0, 0⟩ : Vector3 ℚ)).TransformPoint
        ((CreateScale 2 2 2).TransformPoint ⟨0, 0, 0⟩) = ⟨1, 0, 0⟩
    ∧ (CreateTranslation (⟨1, 0, 0⟩ : Vector3 ℚ) * CreateScale 2 2 2).TransformPoint ⟨0, 0, 0⟩
        ≠ (CreateTranslation (⟨1, 0, 0⟩ : Vector3 ℚ)).TransformPoint
            ((CreateScale 2 2 2).TransformPoint ⟨0, 0, 0⟩) := by
  simp [IsAffine, CreateTranslation, CreateScale, ofAxes, ofColumns, Vector4.ofVector3,
    Vector3.UnitX, Vector3.UnitY, Vector3.UnitZ, TransformPoint, TransformPoint3, Vector4.Dot,
    mul_entries]

/-- C1, amended: for matrices `A` and `B` in affine form and every point `p`,
`(A * B).TransformPoint p = B.TransformPoint (A.TransformPoint p)`: the product `A * B`
applies `A` first and then `B`. -/
theorem mul_TransformPoint {K : Type} [CommRing K] (A B : Matrix K) (p : Vector3 K)
    (hA : IsAffine A) (_hB : IsAffine B) :
    (A * B).TransformPoint p = B.TransformPoint (A.TransformPoint p) := by
  obtain ⟨h0, h1, h2, h3⟩ := hA
  rw [mul_entries]
  simp only [TransformPoint, TransformPoint3, Vector4.Dot, h0, h1, h2, h3]
  congr 1 <;> ring

/-- Witness of `mul_TransformPoint`: a translation followed by a scaling. -/
theorem mul_TransformPoint_witness :
    (CreateTranslation (⟨1, 0, 0⟩ : Vector3 ℚ) * CreateScale 2 2 2).TransformPoint ⟨3, 4, 5⟩
      = (CreateScale 2 2 2).TransformPoint
          ((CreateTranslation (⟨1, 0, 0⟩ : Vector3 ℚ)).TransformPoint ⟨3, 4, 5⟩) :=
  mul_TransformPoint _ _ _
    (by simp [IsAffine, CreateTranslation, ofAxes, ofColumns, Vector4.ofVector3])
    (by simp [IsAffine, CreateScale, ofAxes, ofColumns, Vector4.ofVector3])

/-- C10: for every 4x4 matrix `m`, whatever its sixteen components,
`Matrix::Transpose(Matrix::Transpose(m)) == m` holds, the two matrices being equal
component by component, and the in-place `Transpose()` applied twice restores `m`. -/
theorem Transpose_Transpose {K : Type} [LinearOrderedField K] (m : Matrix K) :
    eqv (TransposeOf (TransposeOf m)) m = true
    ∧ TransposeOf (TransposeOf m) = m
    ∧ m.Transpose.Transpose = m := by
  have h : m.Transpose.Transpose = m := by simp only [transpose_entries]
  exact ⟨by simp only [TransposeOf, h, eqv_self], h, h⟩

end Matrix

/-! ## Sphere hit test -/

section SphereLaws

variable {K : Type} [LinearOrderedField K]

open GeometryUtils

/-- On a sphere and a ray with real components, a discriminant `d ≤ 0` takes the first exit. -/
theorem HitTest_Sphere_of_discr_le (sq : K → K) (s : Sphere K) (o dir : Vector3 K)
    (tmin tmax : Flt K) (hr : HitRecord (Flt K)) (ign : Bool) (h : discr s o dir ≤ 0) :
    HitTest_Sphere sq s.toFlt (Ray.ofReal o dir tmin tmax) hr ign
      = (false, { hr with didHit := false }) := by
  have eB : (Vector3.scale 2 dir).Dot (o - s.origin) = quadB s o dir := Vector3.dot_scale 2 dir _
  have eA : dir.Dot dir = quadA dir := rfl
  have eC : (o - s.origin).Dot (o - s.origin) - s.radius * s.radius = quadC s o := rfl
  have eD : quadB s o dir * quadB s o dir - 4 * quadA dir * quadC s o = discr s o dir := rfl
  simp only [HitTest_Sphere, Sphere.toFlt, Ray.ofReal, Vector3.map_fin_sub, Vector3.dot_map_fin,
    Vector3.scale_map_fin, Flt.fin_mul_fin, Flt.fin_sub_fin, Flt.fin_le_fin, eB, eA, eC, eD]
  exact if_pos h

/-- On a sphere and a ray with real components and a discriminant `d > 0`, the hit test is the
range check on the chosen candidate followed by the filling of the record. -/
theorem HitTest_Sphere_of_discr_pos (sq : K → K) (s : Sphere K) (o dir : Vector3 K)
    (tmin tmax : Flt K) (hr : HitRecord (Flt K)) (ign : Bool) (h : 0 < discr s o dir) :
    HitTest_Sphere sq s.toFlt (Ray.ofReal o dir tmin tmax) hr ign =
      if Flt.fin (chosenT sq s o dir tmin tmax) > tmax
          ∨ Flt.fin (chosenT sq s o dir tmin tmax) < tmin then
        (false, { hr with didHit := false })
      else if ign then (true, hr)
      else (true,
        ⟨(o + Vector3.scale (chosenT sq s o dir tmin tmax) dir).map Flt.fin,
         Vector3.Normalized sq
           ((o + Vector3.scale (chosenT sq s o dir tmin tmax) dir - s.origin).map Flt.fin),
         Flt.fin (chosenT sq s o dir tmin tmax), true, s.materialIndex⟩) := by
  have hd : ¬ discr s o dir ≤ 0 := not_le.mpr h
  have hs : Flt.sqrt sq (Flt.fin (discr s o dir)) = Flt.fin (sq (discr s o dir)) :=
    Flt.sqrt_fin sq h.le
  have eB : (Vector3.scale 2 dir).Dot (o - s.origin) = quadB s o dir := Vector3.dot_scale 2 dir _
  have eA : dir.Dot dir = quadA dir := rfl
  have eC : (o - s.origin).Dot (o - s.origin) - s.radius * s.radius = quadC s o := rfl
  have eD : quadB s o dir * quadB s o dir - 4 * quadA dir * quadC s o = discr s o dir := rfl
  have eLo : (-quadB s o dir - sq (discr s o dir)) / 2 * quadA dir = rootLo sq s o dir := rfl
  have eHi : (-quadB s o dir + sq (discr s o dir)) / 2 * quadA dir = rootHi sq s o dir := rfl
  have eT : (if Flt.fin (rootLo sq s o dir) > tmax ∨ Flt.fin (rootLo sq s o dir) < tmin
      then rootHi sq s o dir else rootLo sq s o dir) = chosenT sq s o dir tmin tmax := rfl
  simp only [HitTest_Sphere, Sphere.toFlt, Ray.ofReal, Vector3.map_fin_sub, Vector3.dot_map_fin,
    Vector3.scale_map_fin, Flt.fin_mul_fin, Flt.fin_sub_fin, Flt.fin_le_fin, eB, eA, eC, eD, hs,
    Flt.neg_fin, Flt.fin_add_fin, Flt.fin_div_two, eLo, eHi, Flt.ite_fin, eT,
    Vector3.map_fin_add, if_neg hd]

/-- C7: for every sphere and ray whose discriminant `d = b² − 4ac` is `≤ 0` (miss or tangent),
both `HitTest_Sphere` overloads return false for every ray interval, and the hit-record variant
leaves `didHit = false`. -/
theorem HitTest_Sphere_miss_of_discr_nonpos (sq : K → K) (s : Sphere K) (o dir : Vector3 K)
    (tmin tmax : Flt K) (hr : HitRecord (Flt K)) (h : discr s o dir ≤ 0) :
    (HitTest_Sphere sq s.toFlt (Ray.ofReal o dir tmin tmax) hr false).1 = false
    ∧ (HitTest_Sphere sq s.toFlt (Ray.ofReal o dir tmin tmax) hr false).2.didHit = false
    ∧ HitTest_Sphere_any sq s.toFlt (Ray.ofReal o dir tmin tmax) = false := by
  simp only [HitTest_Sphere_any, HitTest_Sphere_of_discr_le sq s o dir tmin tmax _ _ h, and_self]

/-- A square root returns `b` on `b * b` for `b ≥ 0`. -/
theorem sq_mul_self {sq : K → K} (hsq : IsSqrt sq) {b : K} (hb : 0 ≤ b) : sq (b * b) = b := by
  obtain ⟨h0, h1⟩ := hsq (b * b) (mul_self_nonneg b)
  exact (mul_self_inj_of_nonneg h0 hb).mp h1

/-- C8: for a sphere with positive radius and a ray whose origin lies on the sphere
(`|origin − center|² = radius²`), whose direction points outward (`dir·(origin − center) > 0`),
with `ray.min = 0` and `ray.max ≥ 0`, `HitTest_Sphere` reports a hit with `t = 0` exactly and
the hit point equal to the ray origin. -/
theorem HitTest_Sphere_from_surface (sq : K → K) (hsq : IsSqrt sq) (s : Sphere K)
    (o dir : Vector3 K) (tmax : Flt K) (hr : HitRecord (Flt K))
    (_hrad : 0 < s.radius)
    (hsurf : Vector3.Dot (o - s.origin) (o - s.origin) = s.radius * s.radius)
    (hout : 0 < Vector3.Dot dir (o - s.origin))
    (hmax : Flt.fin 0 ≤ tmax) :
    (HitTest_Sphere sq s.toFlt (Ray.ofReal o dir (Flt.fin 0) tmax) hr false).1 = true
    ∧ (HitTest_Sphere sq s.toFlt (Ray.ofReal o dir (Flt.fin 0) tmax) hr false).2.didHit = true
    ∧ (HitTest_Sphere sq s.toFlt (Ray.ofReal o dir (Flt.fin 0) tmax) hr false).2.t = Flt.fin 0
    ∧ (HitTest_Sphere sq s.toFlt (Ray.ofReal o dir (Flt.fin 0) tmax) hr false).2.origin
        = o.map Flt.fin := by
  have hb : 0 < quadB s o dir := by unfold quadB; linarith
  have hc : quadC s o = 0 := by unfold quadC; rw [hsurf]; ring
  have hD : discr s o dir = quadB s o dir * quadB s o dir := by unfold discr; rw [hc]; ring
  have hDpos : 0 < discr s o dir := by rw [hD]; exact mul_pos hb hb
  have hsqD : sq (discr s o dir) = quadB s o dir := by rw [hD]; exact sq_mul_self hsq hb.le
  have ha : 0 < quadA dir := by
    by_contra hcon
    have h0 : dir.x * dir.x + dir.y * dir.y + dir.z * dir.z ≤ 0 := not_lt.mp hcon
    have hx : dir.x = 0 := mul_self_eq_zero.mp
      (le_antisymm (by linarith [mul_self_nonneg dir.y, mul_self_nonneg dir.z]) (mul_self_nonneg _))
    have hy : dir.y = 0 := mul_self_eq_zero.mp
      (le_antisymm (by linarith [mul_self_nonneg dir.x, mul_self_nonneg dir.z]) (mul_self_nonneg _))
    have hz : dir.z = 0 := mul_self_eq_zero.mp
      (le_antisymm (by linarith [mul_self_nonneg dir.x, mul_self_nonneg dir.y]) (mul_self_nonneg _))
    have : Vector3.Dot dir (o - s.origin) = 0 := by
      simp only [Vector3.Dot, hx, hy, hz, zero_mul, add_zero]
    exact absurd hout (by rw [this]; exact lt_irrefl 0)
  have hLo : rootLo sq s o dir < 0 := by
    unfold rootLo; rw [hsqD]
    have : (-quadB s o dir - quadB s o dir) / 2 = -quadB s o dir := by ring
    rw [this]
    have := mul_pos hb ha
    linarith
  have hHi : rootHi sq s o dir = 0 := by
    unfold rootHi; rw [hsqD, neg_add_cancel, zero_div, zero_mul]
  have hT : chosenT sq s o dir (Flt.fin 0) tmax = 0 := by
    unfold chosenT
    rw [if_pos (Or.inr ((Flt.fin_lt_fin _ _).mpr hLo)), hHi]
  have hsc : o + Vector3.scale (0 : K) dir = o := by
    cases o
    simp only [Vector3.add_def, Vector3.scale, zero_mul, add_zero]
  rw [HitTest_Sphere_of_discr_pos sq s o dir _ tmax hr false hDpos, hT]
  have hng : ¬ (Flt.fin (0:K) > tmax ∨ Flt.fin (0:K) < Flt.fin 0) := by
    rintro (h | h)
    · exact Flt.flt_not_lt_of_le hmax h
    · simp at h
  rw [if_neg hng]
  simp [hsc]
end SphereLaws

open GeometryUtils

/-- The real square root is a square root in the sense of `IsSqrt`. -/
theorem isSqrt_real : IsSqrt Real.sqrt :=
  fun x hx => ⟨Real.sqrt_nonneg x, Real.mul_self_sqrt hx⟩

/-- Witness of `HitTest_Sphere_from_surface`: the unit sphere at the origin, a ray leaving
from `(1,0,0)` along the x axis with the interval `[0, +∞)`, over the real numbers. -/
theorem HitTest_Sphere_from_surface_witness :
    (HitTest_Sphere Real.sqrt (Sphere.toFlt ⟨⟨0, 0, 0⟩, 1, 0⟩)
        (Ray.ofReal ⟨1, 0, 0⟩ ⟨1, 0, 0⟩ (Flt.fin 0) Flt.pinf) HitRecord.init false).1 = true
    ∧ (HitTest_Sphere Real.sqrt (Sphere.toFlt ⟨⟨0, 0, 0⟩, 1, 0⟩)
        (Ray.ofReal ⟨1, 0, 0⟩ ⟨1, 0, 0⟩ (Flt.fin 0) Flt.pinf) HitRecord.init false).2.didHit = true
    ∧ (HitTest_Sphere Real.sqrt (Sphere.toFlt ⟨⟨0, 0, 0⟩, 1, 0⟩)
        (Ray.ofReal ⟨1, 0, 0⟩ ⟨1, 0, 0⟩ (Flt.fin 0) Flt.pinf) HitRecord.init false).2.t = Flt.fin 0
    ∧ (HitTest_Sphere Real.sqrt (Sphere.toFlt ⟨⟨0, 0, 0⟩, 1, 0⟩)
        (Ray.ofReal ⟨1, 0, 0⟩ ⟨1, 0, 0⟩ (Flt.fin 0) Flt.pinf) HitRecord.init false).2.origin
        = Vector3.map Flt.fin ⟨1, 0, 0⟩ :=
  HitTest_Sphere_from_surface Real.sqrt isSqrt_real ⟨⟨0, 0, 0⟩, 1, 0⟩ ⟨1, 0, 0⟩ ⟨1, 0, 0⟩ Flt.pinf
    HitRecord.init (by norm_num) (by norm_num [Vector3.Dot, Vector3.sub_def])
    (by norm_num [Vector3.Dot, Vector3.sub_def]) (by simp [Flt.le_def, Flt.ble])

theorem sqrt_10000 : Real.sqrt 10000 = 100 := by
  rw [show (10000 : ℝ) = 100 * 100 by norm_num]
  exact Real.sqrt_mul_self (by norm_num)

theorem sqrt_2500 : Real.sqrt 2500 = 50 := by
  rw [show (2500 : ℝ) = 50 * 50 by norm_num]
  exact Real.sqrt_mul_self (by norm_num)

/-- C9: for the sphere with center `(0,0,100)` and radius 50 and the ray from `(0,0,0)` in
direction `(0,0,1)` with interval `[0, +∞)`, over the real numbers with the real square root,
`HitTest_Sphere` reports a hit with `t = 50`, hit point `(0,0,50)` and normal `(0,0,-1)`. -/
theorem HitTest_Sphere_scenario (m : Nat) :
    HitTest_Sphere Real.sqrt (Sphere.toFlt ⟨⟨0, 0, 100⟩, 50, m⟩)
        (Ray.ofReal ⟨0, 0, 0⟩ ⟨0, 0, 1⟩ (Flt.fin 0) Flt.pinf) HitRecord.init false
      = (true, ⟨⟨Flt.fin 0, Flt.fin 0, Flt.fin 50⟩, ⟨Flt.fin 0, Flt.fin 0, Flt.fin (-1)⟩,
          Flt.fin 50, true, m⟩) := by
  have hD : discr (⟨⟨0, 0, 100⟩, 50, m⟩ : Sphere ℝ) ⟨0, 0, 0⟩ ⟨0, 0, 1⟩ = 10000 := by
    norm_num [discr, quadA, quadB, quadC, Vector3.Dot, Vector3.sub_def]
  have hLo : rootLo Real.sqrt (⟨⟨0, 0, 100⟩, 50, m⟩ : Sphere ℝ) ⟨0, 0, 0⟩ ⟨0, 0, 1⟩ = 50 := by
    rw [rootLo, hD, sqrt_10000]
    norm_num [quadA, quadB, Vector3.Dot, Vector3.sub_def]
  have hT : chosenT Real.sqrt (⟨⟨0, 0, 100⟩, 50, m⟩ : Sphere ℝ) ⟨0, 0, 0⟩ ⟨0, 0, 1⟩
      (Flt.fin 0) Flt.pinf = 50 := by
    rw [chosenT, hLo]
    simp
  rw [HitTest_Sphere_of_discr_pos _ _ _ _ _ _ _ _ (by rw [hD]; norm_num), hT]
  have hM : Flt.sqrt Real.sqrt (Flt.fin ((50 - 100) * (50 - 100) : ℝ)) = Flt.fin 50 := by
    rw [Flt.sqrt_fin _ (by norm_num), show ((50 - 100) * (50 - 100) : ℝ) = 2500 by norm_num,
      sqrt_2500]
  have h50 : (50 : ℝ) ≠ 0 := by norm_num
  simp only [Vector3.Normalized, Vector3.Magnitude, Vector3.map, Vector3.add_def,
    Vector3.sub_def, Vector3.scale, Vector3.Dot, Flt.fin_mul_fin, Flt.fin_add_fin, mul_zero,
    mul_one, add_zero, zero_add, sub_zero, zero_sub, zero_mul, hM, Flt.fin_div_fin _ h50]
  norm_num [Flt.lt_def, Flt.blt]



/-- Witness of `HitTest_Sphere_miss_of_discr_nonpos`: a ray along the x axis passing the sphere
of center `(0,0,100)` and radius 50, for which `d = -30000`. -/
theorem HitTest_Sphere_miss_of_discr_nonpos_witness :
    (HitTest_Sphere id (Sphere.toFlt (⟨⟨0, 0, 100⟩, 50, 0⟩ : Sphere ℚ))
        (Ray.ofReal ⟨0, 0, 0⟩ ⟨1, 0, 0⟩ (Flt.fin 0) Flt.pinf) HitRecord.init false).1 = false
    ∧ (HitTest_Sphere id (Sphere.toFlt (⟨⟨0, 0, 100⟩, 50, 0⟩ : Sphere ℚ))
        (Ray.ofReal ⟨0, 0, 0⟩ ⟨1, 0, 0⟩ (Flt.fin 0) Flt.pinf) HitRecord.init false).2.didHit = false
    ∧ HitTest_Sphere_any id (Sphere.toFlt (⟨⟨0, 0, 100⟩, 50, 0⟩ : Sphere ℚ))
        (Ray.ofReal ⟨0, 0, 0⟩ ⟨1, 0, 0⟩ (Flt.fin 0) Flt.pinf) = false :=
  HitTest_Sphere_miss_of_discr_nonpos id ⟨⟨0, 0, 100⟩, 50, 0⟩ ⟨0, 0, 0⟩ ⟨1, 0, 0⟩ (Flt.fin 0)
    Flt.pinf HitRecord.init
    (by norm_num [discr, quadA, quadB, quadC, Vector3.Dot, Vector3.sub_def])

/-- For a unit direction (`a = 1`) the two candidates of the code are the two roots of the
specification. -/
theorem root_eq_specRoot_of_unit {K : Type} [LinearOrderedField K] (sq : K → K) (s : Sphere K)
    (o dir : Vector3 K) (h : quadA dir = 1) :
    rootLo sq s o dir = specRootLo sq s o dir ∧ rootHi sq s o dir = specRootHi sq s o dir := by
  simp only [rootLo, rootHi, specRootLo, specRootHi, h, mul_one, and_self]

/-- The real square root of 40000. -/
theorem sqrt_40000 : Real.sqrt 40000 = 200 := by
  rw [show (40000 : ℝ) = 200 * 200 by norm_num]
  exact Real.sqrt_mul_self (by norm_num)

/-- C2, at a ray with a non-unit direction: for the sphere of center `(0,0,100)` and radius 50
and the ray from the origin in direction `(0,0,2)` with interval `[0, 1000]`, the discriminant
is positive and the root `(−b − √d)/(2a)` of the specification is 25, but `HitTest_Sphere`
reports a hit with `t = 400`, the value of `(-b - sqrt(d)) / 2 * a`, and the point
`(0,0,800)`. -/
theorem HitTest_Sphere_nonunit_direction :
    0 < discr (⟨⟨0, 0, 100⟩, 50, 0⟩ : Sphere ℝ) ⟨0, 0, 0⟩ ⟨0, 0, 2⟩
    ∧ specRootLo Real.sqrt (⟨⟨0, 0, 100⟩, 50, 0⟩ : Sphere ℝ) ⟨0, 0, 0⟩ ⟨0, 0, 2⟩ = 25
    ∧ (HitTest_Sphere Real.sqrt (Sphere.toFlt ⟨⟨0, 0, 100⟩, 50, 0⟩)
        (Ray.ofReal ⟨0, 0, 0⟩ ⟨0, 0, 2⟩ (Flt.fin 0) (Flt.fin 1000)) HitRecord.init false).1 = true
    ∧ (HitTest_Sphere Real.sqrt (Sphere.toFlt ⟨⟨0, 0, 100⟩, 50, 0⟩)
        (Ray.ofReal ⟨0, 0, 0⟩ ⟨0, 0, 2⟩ (Flt.fin 0) (Flt.fin 1000)) HitRecord.init false).2.t
        = Flt.fin 400
    ∧ (HitTest_Sphere Real.sqrt (Sphere.toFlt ⟨⟨0, 0, 100⟩, 50, 0⟩)
        (Ray.ofReal ⟨0, 0, 0⟩ ⟨0, 0, 2⟩ (Flt.fin 0) (Flt.fin 1000)) HitRecord.init false).2.origin
        = ⟨Flt.fin 0, Flt.fin 0, Flt.fin 800⟩ := by
  have hD : discr (⟨⟨0, 0, 100⟩, 50, 0⟩ : Sphere ℝ) ⟨0, 0, 0⟩ ⟨0, 0, 2⟩ = 40000 := by
    norm_num [discr, quadA, quadB, quadC, Vector3.Dot, Vector3.sub_def]
  have hLo : rootLo Real.sqrt (⟨⟨0, 0, 100⟩, 50, 0⟩ : Sphere ℝ) ⟨0, 0, 0⟩ ⟨0, 0, 2⟩ = 400 := by
    rw [rootLo, hD, sqrt_40000]
    norm_num [quadA, quadB, Vector3.Dot, Vector3.sub_def]
  have hT : chosenT Real.sqrt (⟨⟨0, 0, 100⟩, 50, 0⟩ : Sphere ℝ) ⟨0, 0, 0⟩ ⟨0, 0, 2⟩
      (Flt.fin 0) (Flt.fin 1000) = 400 := by
    rw [chosenT, hLo]
    norm_num
  refine ⟨by rw [hD]; norm_num, ?_, ?_⟩
  · rw [specRootLo, hD, sqrt_40000]
    norm_num [quadA, quadB, Vector3.Dot, Vector3.sub_def]
  · rw [HitTest_Sphere_of_discr_pos _ _ _ _ _ _ _ _ (by rw [hD]; norm_num), hT]
    norm_num [Vector3.map, Vector3.add_def, Vector3.scale]

/-! ## Plane hit test -/

section PlaneLaws

variable {K : Type} [LinearOrderedField K]

/-- On a plane and a ray with real components that are not parallel, the hit test is the range
check on `planeT` followed by the filling of the record. -/
theorem HitTest_Plane_of_ne (p : Plane K) (o dir : Vector3 K) (tmin tmax : Flt K)
    (hr : HitRecord (Flt K)) (ign : Bool) (hden : Vector3.Dot dir p.normal ≠ 0) :
    HitTest_Plane p.toFlt (Ray.ofReal o dir tmin tmax) hr ign =
      if Flt.fin (planeT p o dir) < tmin ∨ Flt.fin (planeT p o dir) > tmax then (false, hr)
      else if ign then (true, hr)
      else (true, ⟨(o + Vector3.scaleR dir (planeT p o dir)).map Flt.fin, p.normal.map Flt.fin,
        Flt.fin (planeT p o dir), true, p.materialIndex⟩) := by
  have eT : (p.origin - o).Dot p.normal / dir.Dot p.normal = planeT p o dir := rfl
  simp only [HitTest_Plane, Plane.toFlt, Ray.ofReal, Vector3.map_fin_sub, Vector3.dot_map_fin,
    Flt.fin_div_fin _ hden, eT, Vector3.scaleR_map_fin, Vector3.map_fin_add]

/-- On a plane and a parallel ray with real components, `t` is an infinity or `NaN`. -/
theorem HitTest_Plane_of_eq (p : Plane K) (o dir : Vector3 K) (tmin tmax : Flt K)
    (hr : HitRecord (Flt K)) (ign : Bool) (hden : Vector3.Dot dir p.normal = 0) :
    (HitTest_Plane p.toFlt (Ray.ofReal o dir tmin tmax) hr ign).1 =
      if Flt.signedInf ((p.origin - o).Dot p.normal) true < tmin
        ∨ Flt.signedInf ((p.origin - o).Dot p.normal) true > tmax then false else true := by
  simp only [HitTest_Plane, Plane.toFlt, Ray.ofReal, Vector3.map_fin_sub, Vector3.dot_map_fin,
    hden, Flt.fin_div_zero]
  split_ifs <;> rfl

/-- Over a field `v * k` and `k * v` are the same vector. -/
theorem scaleR_eq_scale (v : Vector3 K) (k : K) : Vector3.scaleR v k = Vector3.scale k v := by
  simp only [Vector3.scaleR, Vector3.scale, mul_comm]

/-- C6: for every plane and every ray with `rayDir·normal ≠ 0` and interval bounds that are
numbers or infinities, with `t = ((planeOrigin − rayOrigin)·normal) / (rayDir·normal)`, both
`HitTest_Plane` overloads return true if and only if `ray.min ≤ t ≤ ray.max`, and on true the
hit-record variant leaves `didHit = true`, that `t`, the point `rayOrigin + t·rayDir`, the
plane's normal and the plane's material index. -/
theorem HitTest_Plane_iff (p : Plane K) (o dir : Vector3 K) (tmin tmax : Flt K)
    (hr : HitRecord (Flt K)) (hden : Vector3.Dot dir p.normal ≠ 0)
    (hmin : tmin ≠ Flt.nan) (hmax : tmax ≠ Flt.nan) :
    ((HitTest_Plane p.toFlt (Ray.ofReal o dir tmin tmax) hr false).1 = true
        ↔ tmin ≤ Flt.fin (planeT p o dir) ∧ Flt.fin (planeT p o dir) ≤ tmax)
    ∧ (HitTest_Plane_any p.toFlt (Ray.ofReal o dir tmin tmax) = true
        ↔ tmin ≤ Flt.fin (planeT p o dir) ∧ Flt.fin (planeT p o dir) ≤ tmax)
    ∧ ((HitTest_Plane p.toFlt (Ray.ofReal o dir tmin tmax) hr false).1 = true →
        (HitTest_Plane p.toFlt (Ray.ofReal o dir tmin tmax) hr false).2
          = ⟨(o + Vector3.scale (planeT p o dir) dir).map Flt.fin, p.normal.map Flt.fin,
              Flt.fin (planeT p o dir), true, p.materialIndex⟩) := by
  have hfin : Flt.fin (planeT p o dir) ≠ Flt.nan := by simp
  have key : (¬ (Flt.fin (planeT p o dir) < tmin ∨ Flt.fin (planeT p o dir) > tmax))
      ↔ tmin ≤ Flt.fin (planeT p o dir) ∧ Flt.fin (planeT p o dir) ≤ tmax := by
    rw [not_or]
    constructor
    · rintro ⟨h1, h2⟩
      exact ⟨Flt.flt_le_of_not_lt hfin hmin h1, Flt.flt_le_of_not_lt hmax hfin h2⟩
    · rintro ⟨h1, h2⟩
      exact ⟨Flt.flt_not_lt_of_le h1, Flt.flt_not_lt_of_le h2⟩
  simp only [HitTest_Plane_any, HitTest_Plane_of_ne p o dir tmin tmax _ _ hden, ← key,
    scaleR_eq_scale]
  refine ⟨?_, ?_, ?_⟩ <;> split_ifs <;> simp_all

/-- C5, amended: for every plane and every ray whose direction is parallel to the plane
(`rayDir·normal = 0`) and whose origin is not in the plane, both `HitTest_Plane` overloads
report no hit, for every ray interval `[min, max]` with finite bounds. -/
theorem HitTest_Plane_parallel_off_plane (p : Plane K) (o dir : Vector3 K) (tmin tmax : K)
    (hr : HitRecord (Flt K)) (hpar : Vector3.Dot dir p.normal = 0)
    (hoff : Vector3.Dot (p.origin - o) p.normal ≠ 0) :
    (HitTest_Plane p.toFlt (Ray.ofReal o dir (Flt.fin tmin) (Flt.fin tmax)) hr false).1 = false
    ∧ HitTest_Plane_any p.toFlt (Ray.ofReal o dir (Flt.fin tmin) (Flt.fin tmax)) = false := by
  have key : Flt.signedInf ((p.origin - o).Dot p.normal) true < Flt.fin tmin
        ∨ Flt.signedInf ((p.origin - o).Dot p.normal) true > Flt.fin tmax := by
    unfold Flt.signedInf
    rw [if_neg hoff]
    split_ifs
    · right; simp [Flt.lt_def, Flt.blt]
    · left; simp [Flt.lt_def, Flt.blt]
  simp only [HitTest_Plane_any, HitTest_Plane_of_eq p o dir _ _ _ _ hpar, if_pos key, and_self]

end PlaneLaws

/-- C5, as stated, fails: the ray from `(0,0,0)` in direction `(1,0,0)` is parallel to the plane
through `(0,0,0)` with normal `(0,1,0)` and lies in it, `t = 0/0` is `NaN`, and both
`HitTest_Plane` overloads report a hit for the interval `[0, 1]`; for the plane through
`(0,1,0)` and the interval `[0, +∞)`, `t = 1/0 = +∞` and a hit is reported as well. -/
theorem HitTest_Plane_parallel_hit :
    Vector3.Dot (⟨1, 0, 0⟩ : Vector3 ℚ) ⟨0, 1, 0⟩ = 0
    ∧ HitTest_Plane_any (Plane.toFlt (⟨⟨0, 0, 0⟩, ⟨0, 1, 0⟩, 0⟩ : Plane ℚ))
        (Ray.ofReal ⟨0, 0, 0⟩ ⟨1, 0, 0⟩ (Flt.fin 0) (Flt.fin 1)) = true
    ∧ (HitTest_Plane (Plane.toFlt (⟨⟨0, 0, 0⟩, ⟨0, 1, 0⟩, 0⟩ : Plane ℚ))
        (Ray.ofReal ⟨0, 0, 0⟩ ⟨1, 0, 0⟩ (Flt.fin 0) (Flt.fin 1)) HitRecord.init false).1 = true
    ∧ HitTest_Plane_any (Plane.toFlt (⟨⟨0, 1, 0⟩, ⟨0, 1, 0⟩, 0⟩ : Plane ℚ))
        (Ray.ofReal ⟨0, 0, 0⟩ ⟨1, 0, 0⟩ (Flt.fin 0) Flt.pinf) = true := by
  have h : Vector3.Dot (⟨1, 0, 0⟩ : Vector3 ℚ) ⟨0, 1, 0⟩ = 0 := by norm_num [Vector3.Dot]
  refine ⟨h, ?_, ?_, ?_⟩
  · rw [HitTest_Plane_any, HitTest_Plane_of_eq _ _ _ _ _ _ _ h]
    norm_num [Flt.signedInf, Vector3.Dot, Vector3.sub_def]
  · rw [HitTest_Plane_of_eq _ _ _ _ _ _ _ h]
    norm_num [Flt.signedInf, Vector3.Dot, Vector3.sub_def]
  · rw [HitTest_Plane_any, HitTest_Plane_of_eq _ _ _ _ _ _ _ h]
    norm_num [Flt.signedInf, Vector3.Dot, Vector3.sub_def]


/-- Witness of `HitTest_Plane_iff`: the plane `z = 10` facing the ray from the origin in
direction `(0,0,2)` with interval `[0, +∞)`. -/
theorem HitTest_Plane_iff_witness :
    ((HitTest_Plane (Plane.toFlt (⟨⟨0, 0, 10⟩, ⟨0, 0, -1⟩, 3⟩ : Plane ℚ))
          (Ray.ofReal ⟨0, 0, 0⟩ ⟨0, 0, 2⟩ (Flt.fin 0) Flt.pinf) HitRecord.init false).1 = true
        ↔ Flt.fin 0 ≤ Flt.fin (planeT (⟨⟨0, 0, 10⟩, ⟨0, 0, -1⟩, 3⟩ : Plane ℚ) ⟨0, 0, 0⟩ ⟨0, 0, 2⟩)
          ∧ Flt.fin (planeT (⟨⟨0, 0, 10⟩, ⟨0, 0, -1⟩, 3⟩ : Plane ℚ) ⟨0, 0, 0⟩ ⟨0, 0, 2⟩) ≤ Flt.pinf)
    ∧ (HitTest_Plane_any (Plane.toFlt (⟨⟨0, 0, 10⟩, ⟨0, 0, -1⟩, 3⟩ : Plane ℚ))
          (Ray.ofReal ⟨0, 0, 0⟩ ⟨0, 0, 2⟩ (Flt.fin 0) Flt.pinf) = true
        ↔ Flt.fin 0 ≤ Flt.fin (planeT (⟨⟨0, 0, 10⟩, ⟨0, 0, -1⟩, 3⟩ : Plane ℚ) ⟨0, 0, 0⟩ ⟨0, 0, 2⟩)
          ∧ Flt.fin (planeT (⟨⟨0, 0, 10⟩, ⟨0, 0, -1⟩, 3⟩ : Plane ℚ) ⟨0, 0, 0⟩ ⟨0, 0, 2⟩) ≤ Flt.pinf)
    ∧ ((HitTest_Plane (Plane.toFlt (⟨⟨0, 0, 10⟩, ⟨0, 0, -1⟩, 3⟩ : Plane ℚ))
          (Ray.ofReal ⟨0, 0, 0⟩ ⟨0, 0, 2⟩ (Flt.fin 0) Flt.pinf) HitRecord.init false).1 = true →
        (HitTest_Plane (Plane.toFlt (⟨⟨0, 0, 10⟩, ⟨0, 0, -1⟩, 3⟩ : Plane ℚ))
          (Ray.ofReal ⟨0, 0, 0⟩ ⟨0, 0, 2⟩ (Flt.fin 0) Flt.pinf) HitRecord.init false).2
          = ⟨Vector3.map Flt.fin (⟨0, 0, 0⟩ + Vector3.scale
                (planeT (⟨⟨0, 0, 10⟩, ⟨0, 0, -1⟩, 3⟩ : Plane ℚ) ⟨0, 0, 0⟩ ⟨0, 0, 2⟩) ⟨0, 0, 2⟩),
              Vector3.map Flt.fin ⟨0, 0, -1⟩,
              Flt.fin (planeT (⟨⟨0, 0, 10⟩, ⟨0, 0, -1⟩, 3⟩ : Plane ℚ) ⟨0, 0, 0⟩ ⟨0, 0, 2⟩),
              true, 3⟩) :=
  HitTest_Plane_iff ⟨⟨0, 0, 10⟩, ⟨0, 0, -1⟩, 3⟩ ⟨0, 0, 0⟩ ⟨0, 0, 2⟩ (Flt.fin 0) Flt.pinf
    HitRecord.init (by norm_num [Vector3.Dot]) (by simp) (by simp)

/-- Witness of `HitTest_Plane_parallel_off_plane`: the plane `y = 1` and the ray from the
origin along the x axis with interval `[-1, 1]`. -/
theorem HitTest_Plane_parallel_off_plane_witness :
    (HitTest_Plane (Plane.toFlt (⟨⟨0, 1, 0⟩, ⟨0, 1, 0⟩, 0⟩ : Plane ℚ))
        (Ray.ofReal ⟨0, 0, 0⟩ ⟨1, 0, 0⟩ (Flt.fin (-1)) (Flt.fin 1)) HitRecord.init false).1 = false
    ∧ HitTest_Plane_any (Plane.toFlt (⟨⟨0, 1, 0⟩, ⟨0, 1, 0⟩, 0⟩ : Plane ℚ))
        (Ray.ofReal ⟨0, 0, 0⟩ ⟨1, 0, 0⟩ (Flt.fin (-1)) (Flt.fin 1)) = false :=
  HitTest_Plane_parallel_off_plane ⟨⟨0, 1, 0⟩, ⟨0, 1, 0⟩, 0⟩ ⟨0, 0, 0⟩ ⟨1, 0, 0⟩ (-1) 1
    HitRecord.init (by norm_num [Vector3.Dot]) (by norm_num [Vector3.Dot, Vector3.sub_def])

/-! ## Scene queries -/

/-- No element passes the test exactly when the list of the records of passing elements is
empty. -/
theorem filterMap_hit_eq_nil {α β : Type} (g : α → Bool × β) (l : List α) :
    l.filterMap (fun a => if (g a).1 then some (g a).2 else none) = []
      ↔ l.any (fun a => (g a).1) = false := by
  induction l with
  | nil => simp
  | cons a l ih =>
    by_cases h : (g a).1 = true
    · simp [List.filterMap_cons, h]
    · simp [List.filterMap_cons, h, ih]

section SceneLaws

variable {K : Type} [LinearOrderedField K]

/-- The sphere overload without a record returns the `bool` of the overload with one. -/
theorem HitTest_Sphere_any_eq (sq : K → K) (s : Sphere (Flt K)) (ray : Ray (Flt K)) :
    HitTest_Sphere_any sq s ray = (HitTest_Sphere sq s ray HitRecord.init false).1 := by
  simp only [HitTest_Sphere_any, HitTest_Sphere]
  split_ifs <;> rfl

/-- The plane overload without a record returns the `bool` of the overload with one. -/
theorem HitTest_Plane_any_eq (p : Plane (Flt K)) (ray : Ray (Flt K)) :
    HitTest_Plane_any p ray = (HitTest_Plane p ray HitRecord.init false).1 := by
  simp only [HitTest_Plane_any, HitTest_Plane]
  split_ifs <;> rfl

/-- A sphere hit with real inputs leaves `didHit = true` and a finite `t`. -/
theorem HitTest_Sphere_record (sq : K → K) (s : Sphere K) (o dir : Vector3 K) (tmin tmax : Flt K)
    (hr : HitRecord (Flt K))
    (h : (HitTest_Sphere sq s.toFlt (Ray.ofReal o dir tmin tmax) hr false).1 = true) :
    (HitTest_Sphere sq s.toFlt (Ray.ofReal o dir tmin tmax) hr false).2.didHit = true
    ∧ ∃ t : K, (HitTest_Sphere sq s.toFlt (Ray.ofReal o dir tmin tmax) hr false).2.t = Flt.fin t := by
  rcases le_or_lt (discr s o dir) 0 with hd | hd
  · rw [HitTest_Sphere_of_discr_le sq s o dir tmin tmax hr false hd] at h
    exact absurd h (by simp)
  · rw [HitTest_Sphere_of_discr_pos sq s o dir tmin tmax hr false hd] at h ⊢
    split_ifs at h ⊢ with h1
    all_goals first
      | exact ⟨rfl, _, rfl⟩
      | contradiction

/-- A plane hit with real inputs and a non-parallel ray leaves `didHit = true` and a finite `t`. -/
theorem HitTest_Plane_record (p : Plane K) (o dir : Vector3 K) (tmin tmax : Flt K)
    (hr : HitRecord (Flt K)) (hden : Vector3.Dot dir p.normal ≠ 0)
    (h : (HitTest_Plane p.toFlt (Ray.ofReal o dir tmin tmax) hr false).1 = true) :
    (HitTest_Plane p.toFlt (Ray.ofReal o dir tmin tmax) hr false).2.didHit = true
    ∧ ∃ t : K, (HitTest_Plane p.toFlt (Ray.ofReal o dir tmin tmax) hr false).2.t = Flt.fin t := by
  rw [HitTest_Plane_of_ne p o dir tmin tmax hr false hden] at h ⊢
  split_ifs at h ⊢ with h1
  all_goals first
    | exact ⟨rfl, _, rfl⟩
    | contradiction

open Scene

/-- A loop of `GetClosestHit` is the fold of `keepCloser` over the records of the hits. -/
theorem foldl_step_filterMap {α : Type} (g : α → Bool × HitRecord (Flt K)) (l : List α)
    (c : HitRecord (Flt K)) :
    l.foldl (fun c a => if (g a).1 then keepCloser c (g a).2 else c) c
      = (l.filterMap (fun a => if (g a).1 then some (g a).2 else none)).foldl keepCloser c := by
  induction l generalizing c with
  | nil => rfl
  | cons a l ih =>
    rw [List.foldl_cons, ih]
    by_cases h : (g a).1 = true
    · simp [List.filterMap_cons, h]
    · simp [List.filterMap_cons, h]

/-- `GetClosestHit` is the fold of `keepCloser` over `hitRecords`, from the initial record. -/
theorem GetClosestHit_eq_foldl (sq : K → K) (scene : Scene (Flt K)) (ray : Ray (Flt K)) :
    GetClosestHit sq scene ray = (hitRecords sq scene ray).foldl keepCloser HitRecord.init := by
  unfold GetClosestHit hitRecords
  rw [List.foldl_append]
  rw [← foldl_step_filterMap (fun s => HitTest_Sphere sq s ray HitRecord.init false),
    ← foldl_step_filterMap (fun p => HitTest_Plane p ray HitRecord.init false)]
  rfl

/-- `DoesHit` is false exactly when no hit test succeeds. -/
theorem DoesHit_iff (sq : K → K) (scene : Scene (Flt K)) (ray : Ray (Flt K)) :
    DoesHit sq scene ray = false ↔ hitRecords sq scene ray = [] := by
  unfold DoesHit hitRecords
  rw [List.append_eq_nil,
    filterMap_hit_eq_nil (fun s => HitTest_Sphere sq s ray HitRecord.init false),
    filterMap_hit_eq_nil (fun p => HitTest_Plane p ray HitRecord.init false)]
  simp only [HitTest_Sphere_any_eq, HitTest_Plane_any_eq]
  split_ifs with h1 h2 <;> simp_all

/-- The fold of `keepCloser` over records without `NaN`: either the start record stays and no
record is below it, or the result is the first record of the list with the smallest `t`. -/
theorem foldl_keepCloser (l : List (HitRecord (Flt K))) (c : HitRecord (Flt K))
    (hl : ∀ h ∈ l, h.t ≠ Flt.nan) (hc : c.t ≠ Flt.nan) :
    (l.foldl keepCloser c = c ∧ ∀ h ∈ l, c.t ≤ h.t)
    ∨ ∃ pre post, l = pre ++ l.foldl keepCloser c :: post
        ∧ (l.foldl keepCloser c).t < c.t
        ∧ (∀ h ∈ pre, (l.foldl keepCloser c).t < h.t)
        ∧ ∀ h ∈ post, (l.foldl keepCloser c).t ≤ h.t := by
  induction l generalizing c with
  | nil => left; simp
  | cons a l ih =>
    have ha : a.t ≠ Flt.nan := hl a (List.mem_cons_self _ _)
    have hl' : ∀ h ∈ l, h.t ≠ Flt.nan := fun h hh => hl h (List.mem_cons_of_mem _ hh)
    rw [List.foldl_cons]
    by_cases hlt : a.t < c.t
    · have hk : keepCloser c a = a := if_pos hlt
      rw [hk]
      right
      rcases ih a hl' ha with ⟨h1, h2⟩ | ⟨pre, post, h1, h2, h3, h4⟩
      · refine ⟨[], l, ?_, ?_, ?_, ?_⟩
        · rw [h1]; rfl
        · rw [h1]; exact hlt
        · intro h hh; cases hh
        · rw [h1]; exact h2
      · refine ⟨a :: pre, post, ?_, Flt.flt_lt_trans h2 hlt, ?_, h4⟩
        · rw [List.cons_append, ← h1]
        · intro h hh
          rcases List.mem_cons.mp hh with rfl | hh
          · exact h2
          · exact h3 h hh
    · have hk : keepCloser c a = c := if_neg hlt
      have hca : c.t ≤ a.t := Flt.flt_le_of_not_lt ha hc hlt
      rw [hk]
      rcases ih c hl' hc with ⟨h1, h2⟩ | ⟨pre, post, h1, h2, h3, h4⟩
      · left
        refine ⟨h1, ?_⟩
        intro h hh
        rcases List.mem_cons.mp hh with rfl | hh
        · exact hca
        · exact h2 h hh
      · right
        refine ⟨a :: pre, post, ?_, h2, ?_, h4⟩
        · rw [List.cons_append, ← h1]
        · intro h hh
          rcases List.mem_cons.mp hh with rfl | hh
          · exact Flt.flt_lt_of_lt_of_le h2 hca
          · exact h3 h hh

/-- With real inputs and no plane parallel to the ray, every hit record has `didHit = true`
and a finite `t`. -/
theorem hitRecords_finite (sq : K → K) (scene : Scene K) (o dir : Vector3 K) (tmin tmax : Flt K)
    (hnp : ∀ p ∈ scene.m_PlaneGeometries, Vector3.Dot dir p.normal ≠ 0) :
    ∀ h ∈ hitRecords sq scene.toFlt (Ray.ofReal o dir tmin tmax),
      h.didHit = true ∧ ∃ t : K, h.t = Flt.fin t := by
  intro h hh
  simp only [hitRecords, Scene.toFlt, List.mem_append, List.mem_filterMap, List.mem_map] at hh
  rcases hh with ⟨s', ⟨s, _, rfl⟩, hs⟩ | ⟨p', ⟨p, hp, rfl⟩, hp'⟩
  · split_ifs at hs with h1
    cases hs
    exact HitTest_Sphere_record sq s o dir tmin tmax _ h1
  · split_ifs at hp' with h1
    cases hp'
    exact HitTest_Plane_record p o dir tmin tmax _ (hnp p hp) h1

end SceneLaws

open Scene

/-- C3, as stated, fails: in the scene with the single plane through `(0,0,0)` with normal
`(0,1,0)`, the ray from `(0,0,0)` in direction `(1,0,0)` with interval `[0, 1]` lies in the
plane, `t = 0/0` is `NaN` and passes the range check, so `DoesHit` returns true, while
`GetClosestHit` keeps its initial record (`NaN < +∞` is false) with `didHit = false`; and for
the plane through `(0,1,0)` and the interval `[0, +∞)`, `t = 1/0 = +∞` passes the range check
and `DoesHit` returns true, while `+∞ < +∞` is false and `didHit` stays false. -/
theorem DoesHit_ne_GetClosestHit_didHit :
    DoesHit id (Scene.toFlt (⟨[], [⟨⟨0, 0, 0⟩, ⟨0, 1, 0⟩, 0⟩]⟩ : Scene ℚ))
        (Ray.ofReal ⟨0, 0, 0⟩ ⟨1, 0, 0⟩ (Flt.fin 0) (Flt.fin 1)) = true
    ∧ (GetClosestHit id (Scene.toFlt (⟨[], [⟨⟨0, 0, 0⟩, ⟨0, 1, 0⟩, 0⟩]⟩ : Scene ℚ))
        (Ray.ofReal ⟨0, 0, 0⟩ ⟨1, 0, 0⟩ (Flt.fin 0) (Flt.fin 1))).didHit = false
    ∧ DoesHit id (Scene.toFlt (⟨[], [⟨⟨0, 1, 0⟩, ⟨0, 1, 0⟩, 0⟩]⟩ : Scene ℚ))
        (Ray.ofReal ⟨0, 0, 0⟩ ⟨1, 0, 0⟩ (Flt.fin 0) Flt.pinf) = true
    ∧ (GetClosestHit id (Scene.toFlt (⟨[], [⟨⟨0, 1, 0⟩, ⟨0, 1, 0⟩, 0⟩]⟩ : Scene ℚ))
        (Ray.ofReal ⟨0, 0, 0⟩ ⟨1, 0, 0⟩ (Flt.fin 0) Flt.pinf)).didHit = false := by
  refine ⟨?_, ?_, ?_, ?_⟩
  · simp only [DoesHit, Scene.toFlt, HitTest_Plane_any, HitTest_Plane, Plane.toFlt, Ray.ofReal,
      Vector3.map_fin_sub, Vector3.dot_map_fin, List.map, List.any]
    simp [Vector3.Dot, Vector3.sub_def, Flt.fin_div_zero, Flt.signedInf]
  · simp only [GetClosestHit, closestPlaneStep, keepCloser, Scene.toFlt, HitTest_Plane,
      Plane.toFlt, Ray.ofReal, Vector3.map_fin_sub, Vector3.dot_map_fin, List.map, List.foldl]
    simp [Vector3.Dot, Vector3.sub_def, Flt.fin_div_zero, Flt.signedInf, HitRecord.init]
  · simp only [DoesHit, Scene.toFlt, HitTest_Plane_any, HitTest_Plane, Plane.toFlt, Ray.ofReal,
      Vector3.map_fin_sub, Vector3.dot_map_fin, List.map, List.any]
    simp [Vector3.Dot, Vector3.sub_def, Flt.fin_div_zero, Flt.signedInf]
  · simp only [GetClosestHit, closestPlaneStep, keepCloser, Scene.toFlt, HitTest_Plane,
      Plane.toFlt, Ray.ofReal, Vector3.map_fin_sub, Vector3.dot_map_fin, List.map, List.foldl]
    simp [Vector3.Dot, Vector3.sub_def, Flt.fin_div_zero, Flt.signedInf, HitRecord.init]

/-- C4, as stated, fails: in the scene with the single plane through `(0,1,0)` with normal
`(0,1,0)`, for the parallel ray from `(0,0,0)` in direction `(1,0,0)` with interval
`[0, +∞)` the hit test of the plane succeeds with `t = 1/0 = +∞`, yet `GetClosestHit` returns
a record with `didHit = false` instead of the record of that hit; and for the plane through
`(0,0,0)`, in which the ray lies, and the interval `[0, 1]`, the hit test succeeds with
`t = NaN` and the returned record has `didHit = false` as well. -/
theorem GetClosestHit_drops_infinite_hit :
    hitRecords id (Scene.toFlt (⟨[], [⟨⟨0, 1, 0⟩, ⟨0, 1, 0⟩, 0⟩]⟩ : Scene ℚ))
        (Ray.ofReal ⟨0, 0, 0⟩ ⟨1, 0, 0⟩ (Flt.fin 0) Flt.pinf) ≠ []
    ∧ (GetClosestHit id (Scene.toFlt (⟨[], [⟨⟨0, 1, 0⟩, ⟨0, 1, 0⟩, 0⟩]⟩ : Scene ℚ))
        (Ray.ofReal ⟨0, 0, 0⟩ ⟨1, 0, 0⟩ (Flt.fin 0) Flt.pinf)).didHit = false
    ∧ hitRecords id (Scene.toFlt (⟨[], [⟨⟨0, 0, 0⟩, ⟨0, 1, 0⟩, 0⟩]⟩ : Scene ℚ))
        (Ray.ofReal ⟨0, 0, 0⟩ ⟨1, 0, 0⟩ (Flt.fin 0) (Flt.fin 1)) ≠ []
    ∧ (GetClosestHit id (Scene.toFlt (⟨[], [⟨⟨0, 0, 0⟩, ⟨0, 1, 0⟩, 0⟩]⟩ : Scene ℚ))
        (Ray.ofReal ⟨0, 0, 0⟩ ⟨1, 0, 0⟩ (Flt.fin 0) (Flt.fin 1))).didHit = false := by
  refine ⟨?_, ?_, ?_, ?_⟩
  · simp only [hitRecords, Scene.toFlt, HitTest_Plane, Plane.toFlt, Ray.ofReal,
      Vector3.map_fin_sub, Vector3.dot_map_fin, List.map, List.filterMap]
    simp [Vector3.Dot, Vector3.sub_def, Flt.fin_div_zero, Flt.signedInf]
  · simp only [GetClosestHit, closestPlaneStep, keepCloser, Scene.toFlt, HitTest_Plane,
      Plane.toFlt, Ray.ofReal, Vector3.map_fin_sub, Vector3.dot_map_fin, List.map, List.foldl]
    simp [Vector3.Dot, Vector3.sub_def, Flt.fin_div_zero, Flt.signedInf, HitRecord.init]
  · simp only [hitRecords, Scene.toFlt, HitTest_Plane, Plane.toFlt, Ray.ofReal,
      Vector3.map_fin_sub, Vector3.dot_map_fin, List.map, List.filterMap]
    simp [Vector3.Dot, Vector3.sub_def, Flt.fin_div_zero, Flt.signedInf]
  · simp only [GetClosestHit, closestPlaneStep, keepCloser, Scene.toFlt, HitTest_Plane,
      Plane.toFlt, Ray.ofReal, Vector3.map_fin_sub, Vector3.dot_map_fin, List.map, List.foldl]
    simp [Vector3.Dot, Vector3.sub_def, Flt.fin_div_zero, Flt.signedInf, HitRecord.init]

/-! ## Matrix products, builders and rotations -/

namespace Matrix

/-- The double loop of `operator*=` unrolled. -/
theorem mulAssign_entries {α : Type} [Zero α] [One α] [Add α] [Mul α] (a m : Matrix α) :
    mulAssign a m =
      ⟨⟨Vector4.Dot a.data0 ⟨m.data0.x, m.data1.x, m.data2.x, m.data3.x⟩,
        Vector4.Dot a.data0 ⟨m.data0.y, m.data1.y, m.data2.y, m.data3.y⟩,
        Vector4.Dot a.data0 ⟨m.data0.z, m.data1.z, m.data2.z, m.data3.z⟩,
        Vector4.Dot a.data0 ⟨m.data0.w, m.data1.w, m.data2.w, m.data3.w⟩⟩,
       ⟨Vector4.Dot a.data1 ⟨m.data0.x, m.data1.x, m.data2.x, m.data3.x⟩,
        Vector4.Dot a.data1 ⟨m.data0.y, m.data1.y, m.data2.y, m.data3.y⟩,
        Vector4.Dot a.data1 ⟨m.data0.z, m.data1.z, m.data2.z, m.data3.z⟩,
        Vector4.Dot a.data1 ⟨m.data0.w, m.data1.w, m.data2.w, m.data3.w⟩⟩,
       ⟨Vector4.Dot a.data2 ⟨m.data0.x, m.data1.x, m.data2.x, m.data3.x⟩,
        Vector4.Dot a.data2 ⟨m.data0.y, m.data1.y, m.data2.y, m.data3.y⟩,
        Vector4.Dot a.data2 ⟨m.data0.z, m.data1.z, m.data2.z, m.data3.z⟩,
        Vector4.Dot a.data2 ⟨m.data0.w, m.data1.w, m.data2.w, m.data3.w⟩⟩,
       ⟨Vector4.Dot a.data3 ⟨m.data0.x, m.data1.x, m.data2.x, m.data3.x⟩,
        Vector4.Dot a.data3 ⟨m.data0.y, m.data1.y, m.data2.y, m.data3.y⟩,
        Vector4.Dot a.data3 ⟨m.data0.z, m.data1.z, m.data2.z, m.data3.z⟩,
        Vector4.Dot a.data3 ⟨m.data0.w, m.data1.w, m.data2.w, m.data3.w⟩⟩⟩ := rfl

/-- `A *= B` leaves in `A` the value of `A * B`. -/
theorem mulAssign_eq_mul {α : Type} [Zero α] [One α] [Add α] [Mul α] (a m : Matrix α) :
    mulAssign a m = a * m := by
  rw [mulAssign_entries, mul_entries]

/-- C18: for all 4x4 matrices `A` and `B` with arbitrary components and all `r`, `c` in 0..3,
`(A * B)[r][c]` equals the direct sum over `k` in 0..3 of `A[r][k] · B[k][c]`, so the
transpose-then-dot implementation gives the direct product; and after `A *= B` the matrix
`A` equals the value `A * B` computed from the original `A`. -/
theorem mul_eq_directProduct {K : Type} [CommRing K] (A B : Matrix K) :
    (∀ r c : Fin 4, ((A * B).get r).get c = directProductEntry A B r c)
    ∧ mulAssign A B = A * B := by
  refine ⟨?_, mulAssign_eq_mul A B⟩
  intro r c
  rw [mul_entries, directProductEntry, Fin.sum_univ_four]
  fin_cases r <;> fin_cases c <;> rfl

/-- The product of an affine `A` with `B` transforms a vector by `A` first, then by `B`. -/
theorem mul_TransformVector {K : Type} [CommRing K] (A B : Matrix K) (v : Vector3 K)
    (hA : IsAffine A) :
    (A * B).TransformVector v = B.TransformVector (A.TransformVector v) := by
  obtain ⟨h0, h1, h2, _⟩ := hA
  rw [mul_entries]
  simp only [TransformVector, TransformVector3, Vector4.Dot, h0, h1, h2]
  congr 1 <;> ring

/-- The constructor from three axes and a translation gives a matrix in affine form. -/
theorem isAffine_ofAxes {K : Type} [CommRing K] (x y z t : Vector3 K) :
    IsAffine (ofAxes x y z t) := ⟨rfl, rfl, rfl, rfl⟩

/-- The product of two matrices in affine form is in affine form. -/
theorem isAffine_mul {K : Type} [CommRing K] (A B : Matrix K) (hA : IsAffine A)
    (hB : IsAffine B) : IsAffine (A * B) := by
  obtain ⟨a0, a1, a2, a3⟩ := hA
  obtain ⟨b0, b1, b2, b3⟩ := hB
  rw [mul_entries]
  simp only [IsAffine, Vector4.Dot, a0, a1, a2, a3, b0, b1, b2, b3]
  simp

/-- C17: every matrix produced by the three-axis-plus-translation constructor, by
`CreateTranslation`, `CreateRotationX`, `CreateRotationY`, `CreateRotationZ`, `CreateRotation`
(Euler and axis-angle) or `CreateScale` is in affine form, and the product `A * B` (and
`A *= B`) of two matrices in affine form is again in affine form. -/
theorem builders_affine {K : Type} [CommRing K] (cos sin : K → K) :
    (∀ x y z t : Vector3 K, IsAffine (ofAxes x y z t))
    ∧ (∀ t : Vector3 K, IsAffine (CreateTranslation t))
    ∧ (∀ x y z : K, IsAffine (CreateTranslation3 x y z))
    ∧ (∀ a : K, IsAffine (CreateRotationX cos sin a))
    ∧ (∀ a : K, IsAffine (CreateRotationY cos sin a))
    ∧ (∀ a : K, IsAffine (CreateRotationZ cos sin a))
    ∧ (∀ r : Vector3 K, IsAffine (CreateRotation cos sin r))
    ∧ (∀ p y r : K, IsAffine (CreateRotation3 cos sin p y r))
    ∧ (∀ (a : K) (axis : Vector3 K), IsAffine (CreateRotationAxis cos sin a axis))
    ∧ (∀ x y z : K, IsAffine (CreateScale x y z))
    ∧ (∀ s : Vector3 K, IsAffine (CreateScaleV s))
    ∧ (∀ A B : Matrix K, IsAffine A → IsAffine B →
        IsAffine (A * B) ∧ IsAffine (mulAssign A B)) := by
  have hX : ∀ a : K, IsAffine (CreateRotationX cos sin a) := fun _ => isAffine_ofAxes _ _ _ _
  have hY : ∀ a : K, IsAffine (CreateRotationY cos sin a) := fun _ => isAffine_ofAxes _ _ _ _
  have hZ : ∀ a : K, IsAffine (CreateRotationZ cos sin a) := fun _ => isAffine_ofAxes _ _ _ _
  have hE : ∀ r : Vector3 K, IsAffine (CreateRotation cos sin r) := fun r =>
    isAffine_mul _ _ (isAffine_mul _ _ (hZ _) (hY _)) (hX _)
  exact ⟨isAffine_ofAxes, fun _ => isAffine_ofAxes _ _ _ _, fun _ _ _ => isAffine_ofAxes _ _ _ _,
    hX, hY, hZ, hE, fun _ _ _ => hE _,
    fun _ _ => isAffine_ofAxes _ _ _ _, fun _ _ _ => isAffine_ofAxes _ _ _ _,
    fun _ => isAffine_ofAxes _ _ _ _,
    fun A B hA hB => ⟨isAffine_mul A B hA hB, by rw [mulAssign_eq_mul]; exact isAffine_mul A B hA hB⟩⟩

/-- Witness of `builders_affine`: the product of a translation and a scaling. -/
theorem builders_affine_witness :
    IsAffine (CreateTranslation (⟨1, 0, 0⟩ : Vector3 ℚ) * CreateScale 2 2 2)
    ∧ IsAffine (mulAssign (CreateTranslation (⟨1, 0, 0⟩ : Vector3 ℚ)) (CreateScale 2 2 2)) :=
  (builders_affine (fun _ : ℚ => 0) (fun _ : ℚ => 1)).2.2.2.2.2.2.2.2.2.2.2
    (CreateTranslation ⟨1, 0, 0⟩) (CreateScale 2 2 2)
    (by simp [IsAffine, CreateTranslation, ofAxes, ofColumns, Vector4.ofVector3])
    (by simp [IsAffine, CreateScale, ofAxes, ofColumns, Vector4.ofVector3])

/-- C12, amended: for every Euler vector `r = (pitch, yaw, roll)` and every vector `v`,
`CreateRotation(r).TransformVector(v)` equals
`CreateRotationX(pitch).TransformVector(CreateRotationY(yaw).TransformVector(
CreateRotationZ(roll).TransformVector(v)))`: the Z rotation is applied first, then Y, then X. -/
theorem CreateRotation_TransformVector {K : Type} [CommRing K] (cos sin : K → K)
    (r v : Vector3 K) :
    (CreateRotation cos sin r).TransformVector v
      = (CreateRotationX cos sin r.x).TransformVector
          ((CreateRotationY cos sin r.y).TransformVector
            ((CreateRotationZ cos sin r.z).TransformVector v)) := by
  have hY : IsAffine (CreateRotationY cos sin r.y) := isAffine_ofAxes _ _ _ _
  have hZ : IsAffine (CreateRotationZ cos sin r.z) := isAffine_ofAxes _ _ _ _
  unfold CreateRotation
  simp only []
  rw [mul_TransformVector _ _ _ (isAffine_mul _ _ hZ hY), mul_TransformVector _ _ _ hZ]

/-- C12, as stated, fails: for `r = (π/2, 0, π/2)` and `v = (1,0,0)`,
`CreateRotation(r).TransformVector(v)` is `(0,0,1)` (Z first, then X), while the X rotation
followed by Y and then Z gives `(0,1,0)`. -/
theorem CreateRotation_not_X_first :
    (CreateRotation Real.cos Real.sin ⟨Real.pi / 2, 0, Real.pi / 2⟩).TransformVector ⟨1, 0, 0⟩
      = ⟨0, 0, 1⟩
    ∧ (CreateRotationZ Real.cos Real.sin (Real.pi / 2)).TransformVector
        ((CreateRotationY Real.cos Real.sin 0).TransformVector
          ((CreateRotationX Real.cos Real.sin (Real.pi / 2)).TransformVector ⟨1, 0, 0⟩))
      = ⟨0, 1, 0⟩
    ∧ (⟨0, 0, 1⟩ : Vector3 ℝ) ≠ ⟨0, 1, 0⟩ := by
  refine ⟨?_, ?_, by simp⟩
  · simp [CreateRotation, mul_entries, CreateRotationX, CreateRotationY, CreateRotationZ,
      ofAxes, ofColumns, Vector4.ofVector3, Vector4.Dot, TransformVector, TransformVector3,
      Vector3.UnitX, Vector3.UnitY, Vector3.UnitZ]
  · simp [CreateRotationX, CreateRotationY, CreateRotationZ, ofAxes, ofColumns,
      Vector4.ofVector3, TransformVector, TransformVector3, Vector3.UnitX, Vector3.UnitY,
      Vector3.UnitZ]

/-- C11, at the angle `π/2`: the Rodrigues rotation about `UnitX` sends `UnitY` to `(0,0,1)`,
as `CreateRotationX(π/2)` does, but `CreateRotation(π/2, UnitX).TransformVector(UnitY)` is
`(0,0,-1)`; and for the unit axis `k = (3/5, 0, 4/5)`,
`CreateRotation(π/2, k).TransformVector(k)` is `(3/5, 48/125, 4/5)`, not `k`. -/
theorem CreateRotationAxis_not_rodrigues :
    rodrigues (Real.cos (Real.pi / 2)) (Real.sin (Real.pi / 2)) Vector3.UnitX Vector3.UnitY
      = (⟨0, 0, 1⟩ : Vector3 ℝ)
    ∧ (CreateRotationX Real.cos Real.sin (Real.pi / 2)).TransformVector Vector3.UnitY
      = (⟨0, 0, 1⟩ : Vector3 ℝ)
    ∧ (CreateRotationAxis Real.cos Real.sin (Real.pi / 2) Vector3.UnitX).TransformVector
        Vector3.UnitY = (⟨0, 0, -1⟩ : Vector3 ℝ)
    ∧ (CreateRotationAxis Real.cos Real.sin (Real.pi / 2) ⟨3 / 5, 0, 4 / 5⟩).TransformVector
        ⟨3 / 5, 0, 4 / 5⟩ = (⟨3 / 5, 48 / 125, 4 / 5⟩ : Vector3 ℝ) := by
  refine ⟨?_, ?_, ?_, ?_⟩
  · simp [rodrigues, Vector3.scaleR, Vector3.Cross, Vector3.Dot, Vector3.add_def,
      Vector3.UnitX, Vector3.UnitY]
  · simp [CreateRotationX, ofAxes, ofColumns, Vector4.ofVector3, TransformVector,
      TransformVector3, Vector3.UnitX, Vector3.UnitY]
  · simp [CreateRotationAxis, ofAxes, ofColumns, Vector4.ofVector3, TransformVector,
      TransformVector3, Vector3.UnitX, Vector3.UnitY]
  · simp only [CreateRotationAxis, ofAxes, ofColumns, Vector4.ofVector3, TransformVector,
      TransformVector3, Real.cos_pi_div_two, Real.sin_pi_div_two]
    norm_num
end Matrix

/-! ## Materials -/

namespace Scene

/-- Below 256 stored materials the cast to `unsigned char` keeps the index. -/
theorem AddMaterial_of_lt {M : Type} (mats : List M) (p : M) (h : mats.length < 256) :
    AddMaterial mats p = (mats ++ [p], mats.length) := by
  simp [AddMaterial, Nat.mod_eq_of_lt h]

/-- A sequence of calls that ends with at most 256 stored materials returns consecutive
indices. -/
theorem AddMaterials_of_le {M : Type} (ps mats : List M) (h : mats.length + ps.length ≤ 256) :
    AddMaterials mats ps = (mats ++ ps, List.range' mats.length ps.length) := by
  induction ps generalizing mats with
  | nil => simp [AddMaterials]
  | cons p ps ih =>
    have h1 : mats.length < 256 := by simp at h; omega
    have h2 : (mats ++ [p]).length + ps.length ≤ 256 := by simp at h ⊢; omega
    simp only [AddMaterials, AddMaterial_of_lt mats p h1, ih _ h2]
    simp [List.range'_succ]

/-- C13, amended: a freshly constructed scene holds exactly one material, at index 0, and for
every sequence of at most 255 `AddMaterial` calls on it the `n`-th call returns `n`, the
position at which the material it was given is stored, so every returned index resolves to
the material added by that call. -/
theorem AddMaterials_indices {M : Type} (d : M) (ps : List M) (h : ps.length ≤ 255) :
    initMaterials d = [d]
    ∧ (AddMaterials (initMaterials d) ps).1 = d :: ps
    ∧ (AddMaterials (initMaterials d) ps).2 = List.range' 1 ps.length
    ∧ ∀ i, i < ps.length →
        (AddMaterials (initMaterials d) ps).2[i]? = some (i + 1)
        ∧ (AddMaterials (initMaterials d) ps).1[i + 1]? = ps[i]? := by
  have hl : (initMaterials d).length + ps.length ≤ 256 := by simp [initMaterials]; omega
  rw [AddMaterials_of_le ps _ hl]
  refine ⟨rfl, rfl, rfl, ?_⟩
  intro i hi
  constructor
  · simp [initMaterials, List.getElem?_range', hi]; omega
  · simp [initMaterials]

/-- A sequence of calls split in two. -/
theorem AddMaterials_append {M : Type} (ps qs mats : List M) :
    AddMaterials mats (ps ++ qs)
      = ((AddMaterials (AddMaterials mats ps).1 qs).1,
         (AddMaterials mats ps).2 ++ (AddMaterials (AddMaterials mats ps).1 qs).2) := by
  induction ps generalizing mats with
  | nil => simp [AddMaterials]
  | cons p ps ih => simp [AddMaterials, ih]

/-- C13, as stated, fails: on a fresh scene the 256th `AddMaterial` call returns 0 (the cast
of 256 to `unsigned char`), the index of the default material, while the material it was
given is stored at position 256. -/
theorem AddMaterial_wraps :
    (AddMaterials (initMaterials 0) (List.replicate 255 1 ++ [2])).2[255]? = some 0
    ∧ (AddMaterials (initMaterials 0) (List.replicate 255 1 ++ [2])).1[0]? = some 0
    ∧ (AddMaterials (initMaterials 0) (List.replicate 255 1 ++ [2])).1[256]? = some 2 := by
  have hR : (List.replicate 255 1).length = 255 := List.length_replicate _ _
  generalize List.replicate 255 1 = R at hR ⊢
  have h : (initMaterials 0).length + R.length ≤ 256 := by
    rw [hR]
    decide
  rw [AddMaterials_append, AddMaterials_of_le _ _ h]
  simp only [AddMaterials, AddMaterial, initMaterials, List.length_append, List.length_singleton,
    List.length_cons, hR]
  refine ⟨?_, ?_, ?_⟩
  · rw [List.getElem?_append_right (by simp)]
    simp
  · simp
  · rw [List.getElem?_append_right (by simp [hR])]
    simp [hR]

/-- Witness of `AddMaterials_indices`: three materials added to a fresh scene. -/
theorem AddMaterials_indices_witness :
    initMaterials 0 = [0]
    ∧ (AddMaterials (initMaterials 0) [7, 8, 9]).1 = 0 :: [7, 8, 9]
    ∧ (AddMaterials (initMaterials 0) [7, 8, 9]).2 = List.range' 1 [7, 8, 9].length
    ∧ ∀ i, i < [7, 8, 9].length →
        (AddMaterials (initMaterials 0) [7, 8, 9]).2[i]? = some (i + 1)
        ∧ (AddMaterials (initMaterials 0) [7, 8, 9]).1[i + 1]? = [7, 8, 9][i]? :=
  AddMaterials_indices 0 [7, 8, 9] (by decide)
end Scene

/-! ## Radiance and points of hits -/

open GeometryUtils LightUtils

section LightAndPointLaws

variable {K : Type} [LinearOrderedField K]

/-- Two different points are at a positive squared distance. -/
theorem dot_self_pos_of_ne {u v : Vector3 K} (h : v ≠ u) : 0 < Vector3.Dot (u - v) (u - v) := by
  by_contra hcon
  have h0 : (u.x - v.x) * (u.x - v.x) + (u.y - v.y) * (u.y - v.y) + (u.z - v.z) * (u.z - v.z) ≤ 0 :=
    not_lt.mp hcon
  have hx : u.x - v.x = 0 := mul_self_eq_zero.mp
    (le_antisymm (by linarith [mul_self_nonneg (u.y - v.y), mul_self_nonneg (u.z - v.z)])
      (mul_self_nonneg _))
  have hy : u.y - v.y = 0 := mul_self_eq_zero.mp
    (le_antisymm (by linarith [mul_self_nonneg (u.x - v.x), mul_self_nonneg (u.z - v.z)])
      (mul_self_nonneg _))
  have hz : u.z - v.z = 0 := mul_self_eq_zero.mp
    (le_antisymm (by linarith [mul_self_nonneg (u.x - v.x), mul_self_nonneg (u.y - v.y)])
      (mul_self_nonneg _))
  apply h
  cases u; cases v
  simp only [Vector3.mk.injEq]
  simp only at hx hy hz
  exact ⟨(sub_eq_zero.mp hx).symm, (sub_eq_zero.mp hy).symm, (sub_eq_zero.mp hz).symm⟩

/-- C14: for every point light and every target point different from the light's origin,
`GetRadiance(light, target)` equals `color × intensity / |lightOrigin − target|²`
component-wise, and for a directional light it equals `color × intensity`; for a point light
at `(0,5,5)` with intensity 50 and target `(0,0,0)` the squared distance is 50 and the
radiance equals the light's color. -/
theorem GetRadiance_eq (lo target : Vector3 K) (intensity : K) (color : ColorRGB K) :
    (target ≠ lo →
      GetRadiance (Light.pointOfReal lo intensity color) (target.map Flt.fin)
        = ⟨Flt.fin (color.r * intensity / Vector3.Dot (lo - target) (lo - target)),
           Flt.fin (color.g * intensity / Vector3.Dot (lo - target) (lo - target)),
           Flt.fin (color.b * intensity / Vector3.Dot (lo - target) (lo - target))⟩)
    ∧ GetRadiance (Light.directionalOfReal lo intensity color) (target.map Flt.fin)
        = ⟨Flt.fin (color.r * intensity), Flt.fin (color.g * intensity),
           Flt.fin (color.b * intensity)⟩
    ∧ Vector3.Dot ((⟨0, 5, 5⟩ : Vector3 K) - ⟨0, 0, 0⟩) (⟨0, 5, 5⟩ - ⟨0, 0, 0⟩) = 50
    ∧ GetRadiance (Light.pointOfReal ⟨0, 5, 5⟩ 50 color) (Vector3.map Flt.fin ⟨0, 0, 0⟩)
        = ⟨Flt.fin color.r, Flt.fin color.g, Flt.fin color.b⟩ := by
  have h50 : Vector3.Dot ((⟨0, 5, 5⟩ : Vector3 K) - ⟨0, 0, 0⟩) (⟨0, 5, 5⟩ - ⟨0, 0, 0⟩) = 50 := by
    simp only [Vector3.Dot, Vector3.sub_def]
    norm_num
  refine ⟨?_, ?_, h50, ?_⟩
  · intro hne
    have hd : Vector3.Dot (lo - target) (lo - target) ≠ 0 := (dot_self_pos_of_ne hne).ne'
    simp only [GetRadiance, Light.pointOfReal, ColorRGB.scale, ColorRGB.divide,
      Vector3.map_fin_sub, Vector3.dot_map_fin, Flt.fin_mul_fin, Flt.fin_div_fin _ hd]
  · simp only [GetRadiance, Light.directionalOfReal, ColorRGB.scale, Flt.fin_mul_fin]
  · have hd : (50 : K) ≠ 0 := by norm_num
    simp only [GetRadiance, Light.pointOfReal, ColorRGB.scale, ColorRGB.divide,
      Vector3.map_fin_sub, Vector3.dot_map_fin, Flt.fin_mul_fin, h50, Flt.fin_div_fin _ hd,
      mul_div_assoc, div_self hd, mul_one]

/-- C20: for every plane and every ray with `rayDir·normal ≠ 0`, whenever `HitTest_Plane`
reports a hit, the recorded hit point lies in the plane:
`(hitPoint − planeOrigin)·normal = 0`, for unit and non-unit normals and directions alike. -/
theorem HitTest_Plane_point_in_plane (p : Plane K) (o dir : Vector3 K) (tmin tmax : Flt K)
    (hr : HitRecord (Flt K)) (hden : Vector3.Dot dir p.normal ≠ 0)
    (h : (HitTest_Plane p.toFlt (Ray.ofReal o dir tmin tmax) hr false).1 = true) :
    Vector3.Dot ((HitTest_Plane p.toFlt (Ray.ofReal o dir tmin tmax) hr false).2.origin
        - p.toFlt.origin) p.toFlt.normal = Flt.fin 0 := by
  rw [HitTest_Plane_of_ne p o dir tmin tmax hr false hden] at h ⊢
  split_ifs at h ⊢ with h1
  all_goals first
    | contradiction
    | skip
  simp only [Plane.toFlt, Vector3.map_fin_sub, Vector3.dot_map_fin]
  congr 1
  simp only [planeT, Vector3.Dot, Vector3.sub_def, Vector3.add_def, Vector3.scaleR] at hden ⊢
  field_simp
  ring
end LightAndPointLaws

/-! ## Hit records: interval, surface, normal -/

open GeometryUtils Scene

section HitRecordLaws

variable {K : Type} [LinearOrderedField K]

/-- A sphere hit leaves `didHit = true` and a `t` that passed the range check. -/
theorem HitTest_Sphere_range (sq : K → K) (s : Sphere (Flt K)) (ray : Ray (Flt K))
    (hr : HitRecord (Flt K)) (h : (HitTest_Sphere sq s ray hr false).1 = true) :
    (HitTest_Sphere sq s ray hr false).2.didHit = true
    ∧ ¬ (HitTest_Sphere sq s ray hr false).2.t > ray.max
    ∧ ¬ (HitTest_Sphere sq s ray hr false).2.t < ray.min := by
  simp only [HitTest_Sphere] at h ⊢
  split_ifs at h ⊢ <;> simp_all

/-- A plane hit leaves `didHit = true` and a `t` that passed the range check. -/
theorem HitTest_Plane_range (p : Plane (Flt K)) (ray : Ray (Flt K))
    (hr : HitRecord (Flt K)) (h : (HitTest_Plane p ray hr false).1 = true) :
    (HitTest_Plane p ray hr false).2.didHit = true
    ∧ ¬ (HitTest_Plane p ray hr false).2.t > ray.max
    ∧ ¬ (HitTest_Plane p ray hr false).2.t < ray.min := by
  simp only [HitTest_Plane] at h ⊢
  split_ifs at h ⊢ <;> simp_all

/-- From a fresh record, `didHit = true` after the sphere test means that it returned true. -/
theorem HitTest_Sphere_init_didHit (sq : K → K) (s : Sphere (Flt K)) (ray : Ray (Flt K))
    (h : (HitTest_Sphere sq s ray HitRecord.init false).2.didHit = true) :
    (HitTest_Sphere sq s ray HitRecord.init false).1 = true := by
  simp only [HitTest_Sphere] at h ⊢
  split_ifs at h ⊢ <;> simp_all [HitRecord.init]

/-- From a fresh record, `didHit = true` after the plane test means that it returned true. -/
theorem HitTest_Plane_init_didHit (p : Plane (Flt K)) (ray : Ray (Flt K))
    (h : (HitTest_Plane p ray HitRecord.init false).2.didHit = true) :
    (HitTest_Plane p ray HitRecord.init false).1 = true := by
  simp only [HitTest_Plane] at h ⊢
  split_ifs at h ⊢ <;> simp_all [HitRecord.init]

/-- Every record of `hitRecords` passed the range check of its hit test. -/
theorem hitRecords_range (sq : K → K) (scene : Scene (Flt K)) (ray : Ray (Flt K)) :
    ∀ h ∈ hitRecords sq scene ray, h.didHit = true ∧ ¬ h.t > ray.max ∧ ¬ h.t < ray.min := by
  intro h hh
  simp only [hitRecords, List.mem_append, List.mem_filterMap] at hh
  rcases hh with ⟨s, _, hs⟩ | ⟨p, _, hp⟩
  · split_ifs at hs with h1
    cases hs
    exact HitTest_Sphere_range sq s ray _ h1
  · split_ifs at hp with h1
    cases hp
    exact HitTest_Plane_range p ray _ h1

/-- The fold of `keepCloser` from the initial record returns that record or a record of the
list whose `t` is not `NaN`. -/
theorem foldl_keepCloser_mem (L : List (HitRecord (Flt K))) (l : List (HitRecord (Flt K)))
    (c : HitRecord (Flt K)) (hsub : ∀ h ∈ l, h ∈ L)
    (hc : c = HitRecord.init ∨ (c ∈ L ∧ c.t ≠ Flt.nan)) :
    l.foldl keepCloser c = HitRecord.init
      ∨ (l.foldl keepCloser c ∈ L ∧ (l.foldl keepCloser c).t ≠ Flt.nan) := by
  induction l generalizing c with
  | nil => exact hc
  | cons a l ih =>
    rw [List.foldl_cons]
    apply ih _ (fun h hh => hsub h (List.mem_cons_of_mem _ hh))
    unfold keepCloser
    split_ifs with hlt
    · right
      refine ⟨hsub a (List.mem_cons_self _ _), ?_⟩
      intro hn
      rw [hn] at hlt
      exact Flt.not_nan_lt _ hlt
    · exact hc

/-- A value other than `NaN` that passed the range check lies in the interval. -/
theorem in_range_of_not_lt {t tmin tmax : Flt K} (ht : t ≠ Flt.nan) (hmin : tmin ≠ Flt.nan)
    (hmax : tmax ≠ Flt.nan) (h1 : ¬ t > tmax) (h2 : ¬ t < tmin) : tmin ≤ t ∧ t ≤ tmax :=
  ⟨Flt.flt_le_of_not_lt ht hmin h2, Flt.flt_le_of_not_lt hmax ht h1⟩

/-- The squared distance from the center to the point at parameter `t`, as a quadratic in `t`. -/
theorem dot_shift (o c dir : Vector3 K) (t : K) :
    Vector3.Dot (o + Vector3.scale t dir - c) (o + Vector3.scale t dir - c)
      = t * t * Vector3.Dot dir dir + t * (2 * Vector3.Dot dir (o - c))
        + Vector3.Dot (o - c) (o - c) := by
  simp only [Vector3.Dot, Vector3.sub_def, Vector3.add_def, Vector3.scale]
  ring

/-- For a unit direction the first candidate of the code solves the quadratic. -/
theorem rootLo_quadratic (sq : K → K) (hsq : IsSqrt sq) (s : Sphere K) (o dir : Vector3 K)
    (hunit : quadA dir = 1) (hd : 0 < discr s o dir) :
    rootLo sq s o dir * rootLo sq s o dir + rootLo sq s o dir * quadB s o dir + quadC s o = 0 := by
  obtain ⟨_, h2⟩ := hsq _ hd.le
  have hD : discr s o dir = quadB s o dir * quadB s o dir - 4 * quadC s o := by
    unfold discr; rw [hunit]; ring
  unfold rootLo
  rw [hunit]
  generalize sq (discr s o dir) = w at h2 ⊢
  rw [hD] at h2
  linear_combination (1 / 4 : K) * h2

/-- For a unit direction the second candidate of the code solves the quadratic. -/
theorem rootHi_quadratic (sq : K → K) (hsq : IsSqrt sq) (s : Sphere K) (o dir : Vector3 K)
    (hunit : quadA dir = 1) (hd : 0 < discr s o dir) :
    rootHi sq s o dir * rootHi sq s o dir + rootHi sq s o dir * quadB s o dir + quadC s o = 0 := by
  obtain ⟨_, h2⟩ := hsq _ hd.le
  have hD : discr s o dir = quadB s o dir * quadB s o dir - 4 * quadC s o := by
    unfold discr; rw [hunit]; ring
  unfold rootHi
  rw [hunit]
  generalize sq (discr s o dir) = w at h2 ⊢
  rw [hD] at h2
  linear_combination (1 / 4 : K) * h2

/-- C19: for every sphere and every ray whose direction has unit length (`dir·dir = 1`),
whenever `HitTest_Sphere` reports a hit, the recorded hit point lies on the sphere:
`|hitPoint − center|² = radius²`. -/
theorem HitTest_Sphere_point_on_sphere (sq : K → K) (hsq : IsSqrt sq) (s : Sphere K)
    (o dir : Vector3 K) (tmin tmax : Flt K) (hr : HitRecord (Flt K))
    (hunit : Vector3.Dot dir dir = 1)
    (h : (HitTest_Sphere sq s.toFlt (Ray.ofReal o dir tmin tmax) hr false).1 = true) :
    Vector3.Dot
        ((HitTest_Sphere sq s.toFlt (Ray.ofReal o dir tmin tmax) hr false).2.origin
          - s.toFlt.origin)
        ((HitTest_Sphere sq s.toFlt (Ray.ofReal o dir tmin tmax) hr false).2.origin
          - s.toFlt.origin)
      = s.toFlt.radius * s.toFlt.radius := by
  rcases le_or_lt (discr s o dir) 0 with hd | hd
  · rw [HitTest_Sphere_of_discr_le sq s o dir tmin tmax hr false hd] at h
    exact absurd h (by simp)
  · have hT : chosenT sq s o dir tmin tmax * chosenT sq s o dir tmin tmax
        + chosenT sq s o dir tmin tmax * quadB s o dir + quadC s o = 0 := by
      unfold chosenT
      split_ifs
      · exact rootHi_quadratic sq hsq s o dir hunit hd
      · exact rootLo_quadratic sq hsq s o dir hunit hd
    rw [HitTest_Sphere_of_discr_pos sq s o dir tmin tmax hr false hd] at h ⊢
    split_ifs at h ⊢ with h1
    all_goals first
      | contradiction
      | skip
    simp only [Sphere.toFlt, Vector3.map_fin_sub, Vector3.dot_map_fin, Flt.fin_mul_fin]
    congr 1
    rw [dot_shift, hunit]
    unfold quadB quadC at hT
    linear_combination hT
end HitRecordLaws

/-- C16, at a ray with a non-unit direction: for the sphere of center `(0,0,16)` and radius 15
and the ray from the origin in direction `(0,0,2)` with interval `[0, +∞)`, `HitTest_Sphere`
reports a hit whose point is the center of the sphere, and the recorded normal, the
normalization of the zero vector, has `NaN` components instead of length 1. -/
theorem HitTest_Sphere_normal_nan :
    (HitTest_Sphere Real.sqrt (Sphere.toFlt ⟨⟨0, 0, 16⟩, 15, 0⟩)
        (Ray.ofReal ⟨0, 0, 0⟩ ⟨0, 0, 2⟩ (Flt.fin 0) Flt.pinf) HitRecord.init false).1 = true
    ∧ (HitTest_Sphere Real.sqrt (Sphere.toFlt ⟨⟨0, 0, 16⟩, 15, 0⟩)
        (Ray.ofReal ⟨0, 0, 0⟩ ⟨0, 0, 2⟩ (Flt.fin 0) Flt.pinf) HitRecord.init false).2.origin
        = ⟨Flt.fin 0, Flt.fin 0, Flt.fin 16⟩
    ∧ (HitTest_Sphere Real.sqrt (Sphere.toFlt ⟨⟨0, 0, 16⟩, 15, 0⟩)
        (Ray.ofReal ⟨0, 0, 0⟩ ⟨0, 0, 2⟩ (Flt.fin 0) Flt.pinf) HitRecord.init false).2.normal
        = ⟨Flt.nan, Flt.nan, Flt.nan⟩ := by
  have h3600 : Real.sqrt 3600 = 60 := by
    rw [show (3600 : ℝ) = 60 * 60 by norm_num]
    exact Real.sqrt_mul_self (by norm_num)
  have hD : discr (⟨⟨0, 0, 16⟩, 15, 0⟩ : Sphere ℝ) ⟨0, 0, 0⟩ ⟨0, 0, 2⟩ = 3600 := by
    norm_num [discr, quadA, quadB, quadC, Vector3.Dot, Vector3.sub_def]
  have hLo : rootLo Real.sqrt (⟨⟨0, 0, 16⟩, 15, 0⟩ : Sphere ℝ) ⟨0, 0, 0⟩ ⟨0, 0, 2⟩ = 8 := by
    rw [rootLo, hD, h3600]
    norm_num [quadA, quadB, Vector3.Dot, Vector3.sub_def]
  have hT : chosenT Real.sqrt (⟨⟨0, 0, 16⟩, 15, 0⟩ : Sphere ℝ) ⟨0, 0, 0⟩ ⟨0, 0, 2⟩
      (Flt.fin 0) Flt.pinf = 8 := by
    rw [chosenT, hLo]
    simp
  rw [HitTest_Sphere_of_discr_pos _ _ _ _ _ _ _ _ (by rw [hD]; norm_num), hT]
  have hM : Flt.sqrt Real.sqrt (Flt.fin (0 : ℝ)) = Flt.fin 0 := by
    rw [Flt.sqrt_fin _ le_rfl, Real.sqrt_zero]
  norm_num [Vector3.Normalized, Vector3.Magnitude, Vector3.map, Vector3.add_def,
    Vector3.sub_def, Vector3.scale, Vector3.Dot, hM, Flt.fin_div_zero, Flt.signedInf]

/-! ## Witnesses -/

open GeometryUtils Scene LightUtils

/-- Witness of `GetRadiance_eq`: the point light at `(0,5,5)` seen from `(0,0,1)`. -/
theorem GetRadiance_eq_witness :
    GetRadiance (Light.pointOfReal (⟨0, 5, 5⟩ : Vector3 ℚ) 50 ⟨1, 1, 1⟩)
        (Vector3.map Flt.fin ⟨0, 0, 1⟩)
      = ⟨Flt.fin (1 * 50 / Vector3.Dot ((⟨0, 5, 5⟩ : Vector3 ℚ) - ⟨0, 0, 1⟩) (⟨0, 5, 5⟩ - ⟨0, 0, 1⟩)),
         Flt.fin (1 * 50 / Vector3.Dot ((⟨0, 5, 5⟩ : Vector3 ℚ) - ⟨0, 0, 1⟩) (⟨0, 5, 5⟩ - ⟨0, 0, 1⟩)),
         Flt.fin (1 * 50 / Vector3.Dot ((⟨0, 5, 5⟩ : Vector3 ℚ) - ⟨0, 0, 1⟩) (⟨0, 5, 5⟩ - ⟨0, 0, 1⟩))⟩ :=
  (GetRadiance_eq (⟨0, 5, 5⟩ : Vector3 ℚ) ⟨0, 0, 1⟩ 50 ⟨1, 1, 1⟩).1 (by simp)

/-- The real square root of 4. -/
theorem sqrt_4 : Real.sqrt 4 = 2 := by
  rw [show (4 : ℝ) = 2 * 2 by norm_num]
  exact Real.sqrt_mul_self (by norm_num)

/-- The ray from `(0,0,-3)` along the z axis hits the unit sphere at the origin. -/
theorem unit_sphere_hit :
    (HitTest_Sphere Real.sqrt (Sphere.toFlt ⟨⟨0, 0, 0⟩, 1, 0⟩)
      (Ray.ofReal ⟨0, 0, -3⟩ ⟨0, 0, 1⟩ (Flt.fin 0) Flt.pinf) HitRecord.init false).1 = true := by
  have hD : discr (⟨⟨0, 0, 0⟩, 1, 0⟩ : Sphere ℝ) ⟨0, 0, -3⟩ ⟨0, 0, 1⟩ = 4 := by
    norm_num [discr, quadA, quadB, quadC, Vector3.Dot, Vector3.sub_def]
  have hLo : rootLo Real.sqrt (⟨⟨0, 0, 0⟩, 1, 0⟩ : Sphere ℝ) ⟨0, 0, -3⟩ ⟨0, 0, 1⟩ = 2 := by
    rw [rootLo, hD, sqrt_4]
    norm_num [quadA, quadB, Vector3.Dot, Vector3.sub_def]
  have hT : chosenT Real.sqrt (⟨⟨0, 0, 0⟩, 1, 0⟩ : Sphere ℝ) ⟨0, 0, -3⟩ ⟨0, 0, 1⟩
      (Flt.fin 0) Flt.pinf = 2 := by
    rw [chosenT, hLo]
    simp
  rw [HitTest_Sphere_of_discr_pos _ _ _ _ _ _ _ _ (by rw [hD]; norm_num), hT]
  norm_num

/-- Witness of `HitTest_Sphere_point_on_sphere`: the unit sphere at the origin and the ray from
`(0,0,-3)` along the z axis. -/
theorem HitTest_Sphere_point_on_sphere_witness :
    Vector3.Dot
        ((HitTest_Sphere Real.sqrt (Sphere.toFlt ⟨⟨0, 0, 0⟩, 1, 0⟩)
            (Ray.ofReal ⟨0, 0, -3⟩ ⟨0, 0, 1⟩ (Flt.fin 0) Flt.pinf) HitRecord.init false).2.origin
          - (Sphere.toFlt (⟨⟨0, 0, 0⟩, 1, 0⟩ : Sphere ℝ)).origin)
        ((HitTest_Sphere Real.sqrt (Sphere.toFlt ⟨⟨0, 0, 0⟩, 1, 0⟩)
            (Ray.ofReal ⟨0, 0, -3⟩ ⟨0, 0, 1⟩ (Flt.fin 0) Flt.pinf) HitRecord.init false).2.origin
          - (Sphere.toFlt (⟨⟨0, 0, 0⟩, 1, 0⟩ : Sphere ℝ)).origin)
      = (Sphere.toFlt (⟨⟨0, 0, 0⟩, 1, 0⟩ : Sphere ℝ)).radius
          * (Sphere.toFlt (⟨⟨0, 0, 0⟩, 1, 0⟩ : Sphere ℝ)).radius :=
  HitTest_Sphere_point_on_sphere Real.sqrt isSqrt_real ⟨⟨0, 0, 0⟩, 1, 0⟩ ⟨0, 0, -3⟩ ⟨0, 0, 1⟩
    (Flt.fin 0) Flt.pinf HitRecord.init (by norm_num [Vector3.Dot]) unit_sphere_hit

/-- The ray from the origin in direction `(0,0,2)` hits the plane `z = 10`. -/
theorem plane_z10_hit :
    (HitTest_Plane (Plane.toFlt (⟨⟨0, 0, 10⟩, ⟨0, 0, -1⟩, 3⟩ : Plane ℚ))
      (Ray.ofReal ⟨0, 0, 0⟩ ⟨0, 0, 2⟩ (Flt.fin 0) Flt.pinf) HitRecord.init false).1 = true := by
  rw [HitTest_Plane_of_ne _ _ _ _ _ _ _ (by norm_num [Vector3.Dot])]
  norm_num [planeT, Vector3.Dot, Vector3.sub_def]

/-- Witness of `HitTest_Plane_point_in_plane`: the plane `z = 10` and the ray from the origin
in direction `(0,0,2)`. -/
theorem HitTest_Plane_point_in_plane_witness :
    Vector3.Dot
        ((HitTest_Plane (Plane.toFlt (⟨⟨0, 0, 10⟩, ⟨0, 0, -1⟩, 3⟩ : Plane ℚ))
            (Ray.ofReal ⟨0, 0, 0⟩ ⟨0, 0, 2⟩ (Flt.fin 0) Flt.pinf) HitRecord.init false).2.origin
          - (Plane.toFlt (⟨⟨0, 0, 10⟩, ⟨0, 0, -1⟩, 3⟩ : Plane ℚ)).origin)
        (Plane.toFlt (⟨⟨0, 0, 10⟩, ⟨0, 0, -1⟩, 3⟩ : Plane ℚ)).normal = Flt.fin 0 :=
  HitTest_Plane_point_in_plane ⟨⟨0, 0, 10⟩, ⟨0, 0, -1⟩, 3⟩ ⟨0, 0, 0⟩ ⟨0, 0, 2⟩ (Flt.fin 0)
    Flt.pinf HitRecord.init (by norm_num [Vector3.Dot]) plane_z10_hit

section NormalLaws

variable {K : Type} [LinearOrderedField K]

/-- For a unit direction and a positive radius the recorded normal has length 1. -/
theorem HitTest_Sphere_normal_unit (sq : K → K) (hsq : IsSqrt sq) (s : Sphere K)
    (o dir : Vector3 K) (tmin tmax : Flt K) (hr : HitRecord (Flt K))
    (hrad : 0 < s.radius) (hunit : Vector3.Dot dir dir = 1)
    (h : (HitTest_Sphere sq s.toFlt (Ray.ofReal o dir tmin tmax) hr false).1 = true) :
    Vector3.Magnitude sq
      (HitTest_Sphere sq s.toFlt (Ray.ofReal o dir tmin tmax) hr false).2.normal = Flt.fin 1 := by
  rcases le_or_lt (discr s o dir) 0 with hd | hd
  · rw [HitTest_Sphere_of_discr_le sq s o dir tmin tmax hr false hd] at h
    exact absurd h (by simp)
  · have hT : chosenT sq s o dir tmin tmax * chosenT sq s o dir tmin tmax
        + chosenT sq s o dir tmin tmax * quadB s o dir + quadC s o = 0 := by
      unfold chosenT
      split_ifs
      · exact rootHi_quadratic sq hsq s o dir hunit hd
      · exact rootLo_quadratic sq hsq s o dir hunit hd
    have hw : Vector3.Dot (o + Vector3.scale (chosenT sq s o dir tmin tmax) dir - s.origin)
        (o + Vector3.scale (chosenT sq s o dir tmin tmax) dir - s.origin)
          = s.radius * s.radius := by
      rw [dot_shift, hunit]
      unfold quadB quadC at hT
      linear_combination hT
    rw [HitTest_Sphere_of_discr_pos sq s o dir tmin tmax hr false hd] at h ⊢
    split_ifs at h ⊢ with h1
    all_goals first
      | contradiction
      | skip
    generalize o + Vector3.scale (chosenT sq s o dir tmin tmax) dir - s.origin = w at hw
    have hr0 : s.radius ≠ 0 := hrad.ne'
    have h1' : sq 1 = 1 := by
      have := sq_mul_self hsq (zero_le_one (α := K))
      rwa [mul_one] at this
    simp only [Vector3.Dot] at hw
    have hdot : w.x / s.radius * (w.x / s.radius) + w.y / s.radius * (w.y / s.radius)
        + w.z / s.radius * (w.z / s.radius) = 1 := by
      field_simp
      linear_combination hw
    simp only [Vector3.Normalized, Vector3.Magnitude, Vector3.dot_map_fin, hw,
      Flt.sqrt_fin sq (mul_self_nonneg s.radius), sq_mul_self hsq hrad.le, Vector3.map,
      Flt.fin_div_fin _ hr0, Vector3.Dot, Flt.fin_mul_fin, Flt.fin_add_fin, hdot,
      Flt.sqrt_fin sq zero_le_one, h1']
end NormalLaws

/-! ## Axis-angle builder against the single-axis builders -/

namespace Matrix

/-- On the unit axes the axis-angle builder returns the transposes of the single-axis
builders. -/
theorem CreateRotationAxis_unit_transpose {K : Type} [CommRing K] (cos sin : K → K) (a : K) :
    CreateRotationAxis cos sin a Vector3.UnitX = TransposeOf (CreateRotationX cos sin a)
    ∧ CreateRotationAxis cos sin a Vector3.UnitY = TransposeOf (CreateRotationY cos sin a)
    ∧ CreateRotationAxis cos sin a Vector3.UnitZ = TransposeOf (CreateRotationZ cos sin a) := by
  refine ⟨?_, ?_, ?_⟩ <;>
    simp [CreateRotationAxis, CreateRotationX, CreateRotationY, CreateRotationZ, TransposeOf,
      transpose_entries, ofAxes, ofColumns, Vector4.ofVector3, Vector3.UnitX, Vector3.UnitY,
      Vector3.UnitZ]

/-- C21, at the angle `π/2`: `CreateRotation(π/2, Vector3::UnitX)` has the axis columns
`(1,0,0)`, `(0,0,-1)`, `(0,1,0)` while `CreateRotationX(π/2)` has `(1,0,0)`, `(0,0,1)`,
`(0,-1,0)`, so `operator==` between them is false; likewise the axis-angle builder on `UnitY`
and `UnitZ` is not `==` to `CreateRotationY(π/2)` and `CreateRotationZ(π/2)`. -/
theorem CreateRotationAxis_ne_single_axis :
    CreateRotationAxis Real.cos Real.sin (Real.pi / 2) Vector3.UnitX
      = ⟨⟨1, 0, 0, 0⟩, ⟨0, 0, -1, 0⟩, ⟨0, 1, 0, 0⟩, ⟨0, 0, 0, 1⟩⟩
    ∧ CreateRotationX Real.cos Real.sin (Real.pi / 2)
      = ⟨⟨1, 0, 0, 0⟩, ⟨0, 0, 1, 0⟩, ⟨0, -1, 0, 0⟩, ⟨0, 0, 0, 1⟩⟩
    ∧ eqv (CreateRotationAxis Real.cos Real.sin (Real.pi / 2) Vector3.UnitX)
        (CreateRotationX Real.cos Real.sin (Real.pi / 2)) = false
    ∧ eqv (CreateRotationAxis Real.cos Real.sin (Real.pi / 2) Vector3.UnitY)
        (CreateRotationY Real.cos Real.sin (Real.pi / 2)) = false
    ∧ eqv (CreateRotationAxis Real.cos Real.sin (Real.pi / 2) Vector3.UnitZ)
        (CreateRotationZ Real.cos Real.sin (Real.pi / 2)) = false := by
  refine ⟨?_, ?_, ?_, ?_, ?_⟩ <;>
    norm_num [CreateRotationAxis, CreateRotationX, CreateRotationY, CreateRotationZ, eqv,
      Vector4.eqv, ofAxes, ofColumns, Vector4.ofVector3, Vector3.UnitX, Vector3.UnitY,
      Vector3.UnitZ]
end Matrix

/-! ## Scene queries and hit records with planes parallel to the ray

The sign of a zero divisor is not represented (see `Flt.div`), so a ray parallel to a plane,
with its origin off the plane, may get `t = +∞` or `t = -∞`.  The laws below are stated under
conditions for which either infinity gives the same result. -/

open GeometryUtils Scene

section ParallelPlaneLaws

variable {K : Type} [LinearOrderedField K]

/-- A plane hit records the quotient computed by the test. -/
theorem HitTest_Plane_t (p : Plane (Flt K)) (ray : Ray (Flt K)) (hr : HitRecord (Flt K))
    (h : (HitTest_Plane p ray hr false).1 = true) :
    (HitTest_Plane p ray hr false).2.t
      = Vector3.Dot (p.origin - ray.origin) p.normal / Vector3.Dot ray.direction p.normal := by
  simp only [HitTest_Plane] at h ⊢
  split_ifs at h ⊢ <;> simp_all

/-- After the sphere test the flag `didHit` is the returned `bool`, whatever the incoming
record. -/
theorem HitTest_Sphere_didHit (sq : K → K) (s : Sphere (Flt K)) (ray : Ray (Flt K))
    (hr : HitRecord (Flt K)) :
    (HitTest_Sphere sq s ray hr false).2.didHit = (HitTest_Sphere sq s ray hr false).1 := by
  simp only [HitTest_Sphere]
  split_ifs <;> first | rfl | contradiction

/-- After the plane test on a record with `didHit = false` the flag `didHit` is the returned
`bool`. -/
theorem HitTest_Plane_didHit (p : Plane (Flt K)) (ray : Ray (Flt K)) (hr : HitRecord (Flt K))
    (h0 : hr.didHit = false) :
    (HitTest_Plane p ray hr false).2.didHit = (HitTest_Plane p ray hr false).1 := by
  simp only [HitTest_Plane]
  split_ifs <;> simp_all

/-- A plane hit with real inputs, from a ray that does not lie in the plane, has a `t` that
is a number or an infinity. -/
theorem HitTest_Plane_t_ne_nan (p : Plane K) (o dir : Vector3 K) (tmin tmax : Flt K)
    (hr : HitRecord (Flt K))
    (hin : Vector3.Dot dir p.normal = 0 → Vector3.Dot (p.origin - o) p.normal ≠ 0)
    (h : (HitTest_Plane p.toFlt (Ray.ofReal o dir tmin tmax) hr false).1 = true) :
    (HitTest_Plane p.toFlt (Ray.ofReal o dir tmin tmax) hr false).2.t ≠ Flt.nan := by
  by_cases hden : Vector3.Dot dir p.normal = 0
  · rw [HitTest_Plane_t _ _ _ h]
    simp only [Plane.toFlt, Ray.ofReal, Vector3.map_fin_sub, Vector3.dot_map_fin, hden,
      Flt.fin_div_zero, Flt.signedInf, if_neg (hin hden)]
    split_ifs <;> simp
  · obtain ⟨_, t, ht⟩ := HitTest_Plane_record p o dir tmin tmax hr hden h
    rw [ht]
    simp

/-- A plane hit with real inputs, from a ray that does not lie in the plane and with
`ray.max` below `+∞`, has a `t` below `+∞`. -/
theorem HitTest_Plane_t_lt_pinf (p : Plane K) (o dir : Vector3 K) (tmin tmax : Flt K)
    (hr : HitRecord (Flt K))
    (hin : Vector3.Dot dir p.normal = 0 →
      Vector3.Dot (p.origin - o) p.normal ≠ 0 ∧ tmax < Flt.pinf)
    (h : (HitTest_Plane p.toFlt (Ray.ofReal o dir tmin tmax) hr false).1 = true) :
    (HitTest_Plane p.toFlt (Ray.ofReal o dir tmin tmax) hr false).2.t ≠ Flt.nan
    ∧ (HitTest_Plane p.toFlt (Ray.ofReal o dir tmin tmax) hr false).2.t < Flt.pinf := by
  refine ⟨HitTest_Plane_t_ne_nan p o dir tmin tmax hr (fun hd => (hin hd).1) h, ?_⟩
  by_cases hden : Vector3.Dot dir p.normal = 0
  · obtain ⟨_, h3, _⟩ := HitTest_Plane_range _ _ _ h
    have hne := HitTest_Plane_t_ne_nan p o dir tmin tmax hr (fun hd => (hin hd).1) h
    have hmax : tmax < Flt.pinf := (hin hden).2
    generalize (HitTest_Plane p.toFlt (Ray.ofReal o dir tmin tmax) hr false).2.t = t at h3 hne ⊢
    have h3' : ¬ tmax < t := h3
    cases t with
    | fin q => simp
    | pinf => exact absurd hmax h3'
    | ninf => simp [Flt.lt_def, Flt.blt]
    | nan => exact absurd rfl hne
  · obtain ⟨_, t, ht⟩ := HitTest_Plane_record p o dir tmin tmax hr hden h
    rw [ht]
    simp

/-- With real inputs, when the ray lies in no plane of the scene and `ray.max` is below `+∞`
as soon as a plane is parallel to the ray, every hit record has `didHit = true` and a `t`
below `+∞` that is not `NaN`. -/
theorem hitRecords_lt_pinf (sq : K → K) (scene : Scene K) (o dir : Vector3 K) (tmin tmax : Flt K)
    (hpar : ∀ p ∈ scene.m_PlaneGeometries, Vector3.Dot dir p.normal = 0 →
      Vector3.Dot (p.origin - o) p.normal ≠ 0 ∧ tmax < Flt.pinf) :
    ∀ h ∈ hitRecords sq scene.toFlt (Ray.ofReal o dir tmin tmax),
      h.didHit = true ∧ h.t ≠ Flt.nan ∧ h.t < Flt.pinf := by
  intro h hh
  simp only [hitRecords, Scene.toFlt, List.mem_append, List.mem_filterMap, List.mem_map] at hh
  rcases hh with ⟨s', ⟨s, _, rfl⟩, hs⟩ | ⟨p', ⟨p, hp, rfl⟩, hp'⟩
  · split_ifs at hs with h1
    cases hs
    obtain ⟨hd, t, ht⟩ := HitTest_Sphere_record sq s o dir tmin tmax _ h1
    rw [ht]
    exact ⟨hd, by simp, by simp⟩
  · split_ifs at hp' with h1
    cases hp'
    exact ⟨(HitTest_Plane_range _ _ _ h1).1,
      HitTest_Plane_t_lt_pinf p o dir tmin tmax _ (hpar p hp) h1⟩

/-- C4, amended: with components taken as exact real numbers, for every scene and every ray
such that, for each plane of the scene parallel to the ray, the ray origin does not lie in
that plane and `ray.max` is below `+∞` (no condition on planes that are not parallel),
`GetClosestHit` returns the hit record of the first primitive in evaluation order (spheres in
insertion order, then planes in insertion order) that attains the smallest `t` among the
primitives whose hit test succeeds: every earlier hit has a strictly larger `t` and every
later hit a `t` at least as large, so ties keep the earlier primitive; when no hit test
succeeds the returned record has `didHit = false`. -/
theorem GetClosestHit_first_smallest (sq : K → K) (scene : Scene K) (o dir : Vector3 K)
    (tmin tmax : Flt K)
    (hpar : ∀ p ∈ scene.m_PlaneGeometries, Vector3.Dot dir p.normal = 0 →
      Vector3.Dot (p.origin - o) p.normal ≠ 0 ∧ tmax < Flt.pinf) :
    (hitRecords sq scene.toFlt (Ray.ofReal o dir tmin tmax) = [] →
      (GetClosestHit sq scene.toFlt (Ray.ofReal o dir tmin tmax)).didHit = false)
    ∧ (hitRecords sq scene.toFlt (Ray.ofReal o dir tmin tmax) ≠ [] →
      ∃ pre post,
        hitRecords sq scene.toFlt (Ray.ofReal o dir tmin tmax)
          = pre ++ GetClosestHit sq scene.toFlt (Ray.ofReal o dir tmin tmax) :: post
        ∧ (∀ h ∈ pre, (GetClosestHit sq scene.toFlt (Ray.ofReal o dir tmin tmax)).t < h.t)
        ∧ ∀ h ∈ post, (GetClosestHit sq scene.toFlt (Ray.ofReal o dir tmin tmax)).t ≤ h.t) := by
  have hgood := hitRecords_lt_pinf sq scene o dir tmin tmax hpar
  rw [GetClosestHit_eq_foldl]
  constructor
  · intro he
    rw [he]
    rfl
  · intro hne
    rcases foldl_keepCloser _ HitRecord.init (fun h hh => (hgood h hh).2.1)
      (by simp [HitRecord.init]) with ⟨_, h2⟩ | ⟨pre, post, h1, _, h3, h4⟩
    · exfalso
      obtain ⟨a, ha⟩ := List.exists_mem_of_ne_nil _ hne
      exact Flt.flt_not_lt_of_le (h2 a ha) (hgood a ha).2.2
    · exact ⟨pre, post, h1, h3, h4⟩

/-- C3, amended: with components taken as exact real numbers, for every scene and every ray
such that, for each plane of the scene parallel to the ray, the ray origin does not lie in
that plane and `ray.max` is below `+∞` (no condition on planes that are not parallel),
`Scene::DoesHit(ray)` returns true if and only if the record produced by
`Scene::GetClosestHit(ray)` has `didHit = true`. -/
theorem DoesHit_eq_GetClosestHit_didHit (sq : K → K) (scene : Scene K) (o dir : Vector3 K)
    (tmin tmax : Flt K)
    (hpar : ∀ p ∈ scene.m_PlaneGeometries, Vector3.Dot dir p.normal = 0 →
      Vector3.Dot (p.origin - o) p.normal ≠ 0 ∧ tmax < Flt.pinf) :
    DoesHit sq scene.toFlt (Ray.ofReal o dir tmin tmax)
      = (GetClosestHit sq scene.toFlt (Ray.ofReal o dir tmin tmax)).didHit := by
  have hgood := hitRecords_lt_pinf sq scene o dir tmin tmax hpar
  by_cases he : hitRecords sq scene.toFlt (Ray.ofReal o dir tmin tmax) = []
  · rw [(DoesHit_iff _ _ _).mpr he, GetClosestHit_eq_foldl, he]
    rfl
  · have hd : DoesHit sq scene.toFlt (Ray.ofReal o dir tmin tmax) = true := by
      cases hdh : DoesHit sq scene.toFlt (Ray.ofReal o dir tmin tmax)
      · exact absurd ((DoesHit_iff _ _ _).mp hdh) he
      · rfl
    rw [hd, GetClosestHit_eq_foldl]
    rcases foldl_keepCloser _ HitRecord.init (fun h hh => (hgood h hh).2.1)
      (by simp [HitRecord.init]) with ⟨_, h2⟩ | ⟨pre, post, h1, _, _, _⟩
    · exfalso
      obtain ⟨a, ha⟩ := List.exists_mem_of_ne_nil _ he
      exact Flt.flt_not_lt_of_le (h2 a ha) (hgood a ha).2.2
    · have hmem : List.foldl keepCloser HitRecord.init
          (hitRecords sq scene.toFlt (Ray.ofReal o dir tmin tmax))
          ∈ hitRecords sq scene.toFlt (Ray.ofReal o dir tmin tmax) := by
        generalize List.foldl keepCloser HitRecord.init
          (hitRecords sq scene.toFlt (Ray.ofReal o dir tmin tmax)) = x at h1
        rw [h1]
        simp
      exact (hgood _ hmem).1.symm

/-- C15, amended: with components taken as exact real numbers and interval bounds that are
numbers or infinities: for every sphere and every incoming record, whenever the record after
`HitTest_Sphere` has `didHit = true`, its `t` satisfies `ray.min ≤ t ≤ ray.max`; the same for
`HitTest_Plane`, for every plane in which the ray does not lie (parallel planes with the
origin off them included) and every incoming record with `didHit = false`; and the same for
the record of `Scene::GetClosestHit`, for every scene. -/
theorem didHit_t_in_interval (sq : K → K) (o dir : Vector3 K) (tmin tmax : Flt K)
    (hmin : tmin ≠ Flt.nan) (hmax : tmax ≠ Flt.nan) :
    (∀ (s : Sphere K) (hr : HitRecord (Flt K)),
      (HitTest_Sphere sq s.toFlt (Ray.ofReal o dir tmin tmax) hr false).2.didHit = true →
      tmin ≤ (HitTest_Sphere sq s.toFlt (Ray.ofReal o dir tmin tmax) hr false).2.t
      ∧ (HitTest_Sphere sq s.toFlt (Ray.ofReal o dir tmin tmax) hr false).2.t ≤ tmax)
    ∧ (∀ (p : Plane K) (hr : HitRecord (Flt K)),
      (Vector3.Dot dir p.normal = 0 → Vector3.Dot (p.origin - o) p.normal ≠ 0) →
      hr.didHit = false →
      (HitTest_Plane p.toFlt (Ray.ofReal o dir tmin tmax) hr false).2.didHit = true →
      tmin ≤ (HitTest_Plane p.toFlt (Ray.ofReal o dir tmin tmax) hr false).2.t
      ∧ (HitTest_Plane p.toFlt (Ray.ofReal o dir tmin tmax) hr false).2.t ≤ tmax)
    ∧ (∀ scene : Scene K,
      (GetClosestHit sq scene.toFlt (Ray.ofReal o dir tmin tmax)).didHit = true →
      tmin ≤ (GetClosestHit sq scene.toFlt (Ray.ofReal o dir tmin tmax)).t
      ∧ (GetClosestHit sq scene.toFlt (Ray.ofReal o dir tmin tmax)).t ≤ tmax) := by
  refine ⟨?_, ?_, ?_⟩
  · intro s hr hd
    rw [HitTest_Sphere_didHit] at hd
    obtain ⟨_, t, ht⟩ := HitTest_Sphere_record sq s o dir tmin tmax _ hd
    obtain ⟨_, h3, h4⟩ := HitTest_Sphere_range sq _ _ _ hd
    exact in_range_of_not_lt (by rw [ht]; simp) hmin hmax h3 h4
  · intro p hr hin h0 hd
    rw [HitTest_Plane_didHit _ _ _ h0] at hd
    obtain ⟨_, h3, h4⟩ := HitTest_Plane_range _ _ _ hd
    exact in_range_of_not_lt (HitTest_Plane_t_ne_nan p o dir tmin tmax hr hin hd) hmin hmax h3 h4
  · intro scene hd
    rw [GetClosestHit_eq_foldl] at hd ⊢
    rcases foldl_keepCloser_mem (hitRecords sq scene.toFlt (Ray.ofReal o dir tmin tmax)) _
      HitRecord.init (fun _ hh => hh) (Or.inl rfl) with h0 | ⟨hm, hn⟩
    · rw [h0] at hd
      simp [HitRecord.init] at hd
    · obtain ⟨_, h3, h4⟩ := hitRecords_range sq _ _ _ hm
      exact in_range_of_not_lt hn hmin hmax h3 h4

end ParallelPlaneLaws

/-- Either infinity fails the range check of an interval with finite bounds. -/
theorem infinity_outside_finite_interval {K : Type} [LinearOrderedField K] (tmin tmax : K) :
    ((Flt.pinf : Flt K) < Flt.fin tmin ∨ (Flt.pinf : Flt K) > Flt.fin tmax)
    ∧ ((Flt.ninf : Flt K) < Flt.fin tmin ∨ (Flt.ninf : Flt K) > Flt.fin tmax) := by
  constructor
  · right; simp [Flt.lt_def, Flt.blt]
  · left; simp [Flt.lt_def, Flt.blt]

/-- The side plane `x = 5` is parallel to the z axis and does not contain the origin; the
plane `z = 1000` is not parallel to the z axis. -/
theorem side_plane_condition :
    ∀ p ∈ ([⟨⟨0, 0, 1000⟩, ⟨0, 0, -1⟩, 0⟩, ⟨⟨5, 0, 0⟩, ⟨1, 0, 0⟩, 3⟩] : List (Plane ℝ)),
      Vector3.Dot (⟨0, 0, 1⟩ : Vector3 ℝ) p.normal = 0 →
        Vector3.Dot (p.origin - ⟨0, 0, 0⟩) p.normal ≠ 0
        ∧ (Flt.fin 2000 : Flt ℝ) < Flt.pinf := by
  intro p hp hd
  simp only [List.mem_cons, List.mem_singleton, List.not_mem_nil, or_false] at hp
  rcases hp with rfl | rfl
  · norm_num [Vector3.Dot] at hd
  · exact ⟨by norm_num [Vector3.Dot, Vector3.sub_def], by simp⟩

/-- Witness of `DoesHit_eq_GetClosestHit_didHit`: two spheres, a plane across the z axis and a
side plane parallel to it, the ray from the origin along the z axis with interval
`[0, 2000]`, over the real numbers. -/
theorem DoesHit_eq_GetClosestHit_didHit_witness :
    DoesHit Real.sqrt
        (Scene.toFlt ⟨[⟨⟨0, 0, 300⟩, 50, 2⟩, ⟨⟨0, 0, 100⟩, 50, 1⟩],
          [⟨⟨0, 0, 1000⟩, ⟨0, 0, -1⟩, 0⟩, ⟨⟨5, 0, 0⟩, ⟨1, 0, 0⟩, 3⟩]⟩)
        (Ray.ofReal ⟨0, 0, 0⟩ ⟨0, 0, 1⟩ (Flt.fin 0) (Flt.fin 2000))
      = (GetClosestHit Real.sqrt
        (Scene.toFlt ⟨[⟨⟨0, 0, 300⟩, 50, 2⟩, ⟨⟨0, 0, 100⟩, 50, 1⟩],
          [⟨⟨0, 0, 1000⟩, ⟨0, 0, -1⟩, 0⟩, ⟨⟨5, 0, 0⟩, ⟨1, 0, 0⟩, 3⟩]⟩)
        (Ray.ofReal ⟨0, 0, 0⟩ ⟨0, 0, 1⟩ (Flt.fin 0) (Flt.fin 2000))).didHit :=
  DoesHit_eq_GetClosestHit_didHit Real.sqrt
    ⟨[⟨⟨0, 0, 300⟩, 50, 2⟩, ⟨⟨0, 0, 100⟩, 50, 1⟩],
      [⟨⟨0, 0, 1000⟩, ⟨0, 0, -1⟩, 0⟩, ⟨⟨5, 0, 0⟩, ⟨1, 0, 0⟩, 3⟩]⟩
    ⟨0, 0, 0⟩ ⟨0, 0, 1⟩ (Flt.fin 0) (Flt.fin 2000) side_plane_condition

/-- Witness of `GetClosestHit_first_smallest`: two spheres, the farther one added first, a
plane across the z axis and a side plane parallel to it, the ray from the origin along the
z axis with interval `[0, 2000]`. -/
theorem GetClosestHit_first_smallest_witness :
    (hitRecords Real.sqrt
        (Scene.toFlt ⟨[⟨⟨0, 0, 300⟩, 50, 2⟩, ⟨⟨0, 0, 100⟩, 50, 1⟩],
          [⟨⟨0, 0, 1000⟩, ⟨0, 0, -1⟩, 0⟩, ⟨⟨5, 0, 0⟩, ⟨1, 0, 0⟩, 3⟩]⟩)
        (Ray.ofReal ⟨0, 0, 0⟩ ⟨0, 0, 1⟩ (Flt.fin 0) (Flt.fin 2000)) = [] →
      (GetClosestHit Real.sqrt
        (Scene.toFlt ⟨[⟨⟨0, 0, 300⟩, 50, 2⟩, ⟨⟨0, 0, 100⟩, 50, 1⟩],
          [⟨⟨0, 0, 1000⟩, ⟨0, 0, -1⟩, 0⟩, ⟨⟨5, 0, 0⟩, ⟨1, 0, 0⟩, 3⟩]⟩)
        (Ray.ofReal ⟨0, 0, 0⟩ ⟨0, 0, 1⟩ (Flt.fin 0) (Flt.fin 2000))).didHit = false)
    ∧ (hitRecords Real.sqrt
        (Scene.toFlt ⟨[⟨⟨0, 0, 300⟩, 50, 2⟩, ⟨⟨0, 0, 100⟩, 50, 1⟩],
          [⟨⟨0, 0, 1000⟩, ⟨0, 0, -1⟩, 0⟩, ⟨⟨5, 0, 0⟩, ⟨1, 0, 0⟩, 3⟩]⟩)
        (Ray.ofReal ⟨0, 0, 0⟩ ⟨0, 0, 1⟩ (Flt.fin 0) (Flt.fin 2000)) ≠ [] →
      ∃ pre post,
        hitRecords Real.sqrt
          (Scene.toFlt ⟨[⟨⟨0, 0, 300⟩, 50, 2⟩, ⟨⟨0, 0, 100⟩, 50, 1⟩],
            [⟨⟨0, 0, 1000⟩, ⟨0, 0, -1⟩, 0⟩, ⟨⟨5, 0, 0⟩, ⟨1, 0, 0⟩, 3⟩]⟩)
          (Ray.ofReal ⟨0, 0, 0⟩ ⟨0, 0, 1⟩ (Flt.fin 0) (Flt.fin 2000))
          = pre ++ GetClosestHit Real.sqrt
              (Scene.toFlt ⟨[⟨⟨0, 0, 300⟩, 50, 2⟩, ⟨⟨0, 0, 100⟩, 50, 1⟩],
                [⟨⟨0, 0, 1000⟩, ⟨0, 0, -1⟩, 0⟩, ⟨⟨5, 0, 0⟩, ⟨1, 0, 0⟩, 3⟩]⟩)
              (Ray.ofReal ⟨0, 0, 0⟩ ⟨0, 0, 1⟩ (Flt.fin 0) (Flt.fin 2000)) :: post
        ∧ (∀ h ∈ pre, (GetClosestHit Real.sqrt
              (Scene.toFlt ⟨[⟨⟨0, 0, 300⟩, 50, 2⟩, ⟨⟨0, 0, 100⟩, 50, 1⟩],
                [⟨⟨0, 0, 1000⟩, ⟨0, 0, -1⟩, 0⟩, ⟨⟨5, 0, 0⟩, ⟨1, 0, 0⟩, 3⟩]⟩)
              (Ray.ofReal ⟨0, 0, 0⟩ ⟨0, 0, 1⟩ (Flt.fin 0) (Flt.fin 2000))).t < h.t)
        ∧ ∀ h ∈ post, (GetClosestHit Real.sqrt
              (Scene.toFlt ⟨[⟨⟨0, 0, 300⟩, 50, 2⟩, ⟨⟨0, 0, 100⟩, 50, 1⟩],
                [⟨⟨0, 0, 1000⟩, ⟨0, 0, -1⟩, 0⟩, ⟨⟨5, 0, 0⟩, ⟨1, 0, 0⟩, 3⟩]⟩)
              (Ray.ofReal ⟨0, 0, 0⟩ ⟨0, 0, 1⟩ (Flt.fin 0) (Flt.fin 2000))).t ≤ h.t) :=
  GetClosestHit_first_smallest Real.sqrt
    ⟨[⟨⟨0, 0, 300⟩, 50, 2⟩, ⟨⟨0, 0, 100⟩, 50, 1⟩],
      [⟨⟨0, 0, 1000⟩, ⟨0, 0, -1⟩, 0⟩, ⟨⟨5, 0, 0⟩, ⟨1, 0, 0⟩, 3⟩]⟩
    ⟨0, 0, 0⟩ ⟨0, 0, 1⟩ (Flt.fin 0) (Flt.fin 2000) side_plane_condition

/-- C15, as stated, fails: for the plane through `(0,0,0)` with normal `(0,1,0)` and the ray
from `(0,0,0)` in direction `(1,0,0)` with interval `[0, 1]`, `HitTest_Plane` leaves
`didHit = true` with `t = NaN`, and `ray.min ≤ t` does not hold; and a miss of the plane
`z = 10` for the interval `[0, 5]` leaves an incoming record with `didHit = true` and `t = 7`
as it is, with `t` above `ray.max`. -/
theorem HitTest_Plane_hit_with_nan_t :
    ((HitTest_Plane (Plane.toFlt (⟨⟨0, 0, 0⟩, ⟨0, 1, 0⟩, 0⟩ : Plane ℚ))
        (Ray.ofReal ⟨0, 0, 0⟩ ⟨1, 0, 0⟩ (Flt.fin 0) (Flt.fin 1)) HitRecord.init false).2.didHit
      = true
    ∧ (HitTest_Plane (Plane.toFlt (⟨⟨0, 0, 0⟩, ⟨0, 1, 0⟩, 0⟩ : Plane ℚ))
        (Ray.ofReal ⟨0, 0, 0⟩ ⟨1, 0, 0⟩ (Flt.fin 0) (Flt.fin 1)) HitRecord.init false).2.t
      = Flt.nan
    ∧ ¬ (Flt.fin 0 ≤ (HitTest_Plane (Plane.toFlt (⟨⟨0, 0, 0⟩, ⟨0, 1, 0⟩, 0⟩ : Plane ℚ))
        (Ray.ofReal ⟨0, 0, 0⟩ ⟨1, 0, 0⟩ (Flt.fin 0) (Flt.fin 1)) HitRecord.init false).2.t))
    ∧ ((HitTest_Plane (Plane.toFlt (⟨⟨0, 0, 10⟩, ⟨0, 0, -1⟩, 0⟩ : Plane ℚ))
        (Ray.ofReal ⟨0, 0, 0⟩ ⟨0, 0, 1⟩ (Flt.fin 0) (Flt.fin 5))
        ⟨0, 0, Flt.fin 7, true, 0⟩ false).2.didHit = true
    ∧ (HitTest_Plane (Plane.toFlt (⟨⟨0, 0, 10⟩, ⟨0, 0, -1⟩, 0⟩ : Plane ℚ))
        (Ray.ofReal ⟨0, 0, 0⟩ ⟨0, 0, 1⟩ (Flt.fin 0) (Flt.fin 5))
        ⟨0, 0, Flt.fin 7, true, 0⟩ false).2.t = Flt.fin 7
    ∧ ¬ ((Flt.fin 7 : Flt ℚ) ≤ Flt.fin 5)) := by
  have ht : (HitTest_Plane (Plane.toFlt (⟨⟨0, 0, 0⟩, ⟨0, 1, 0⟩, 0⟩ : Plane ℚ))
      (Ray.ofReal ⟨0, 0, 0⟩ ⟨1, 0, 0⟩ (Flt.fin 0) (Flt.fin 1)) HitRecord.init false)
      = (true, ⟨Vector3.map Flt.fin ⟨0, 0, 0⟩
          + Vector3.scaleR (Vector3.map Flt.fin ⟨1, 0, 0⟩) Flt.nan,
          Vector3.map Flt.fin ⟨0, 1, 0⟩, Flt.nan, true, 0⟩) := by
    simp only [HitTest_Plane, Plane.toFlt, Ray.ofReal, Vector3.map_fin_sub, Vector3.dot_map_fin]
    simp [Vector3.Dot, Vector3.sub_def, Flt.fin_div_zero, Flt.signedInf]
  have hs : (HitTest_Plane (Plane.toFlt (⟨⟨0, 0, 10⟩, ⟨0, 0, -1⟩, 0⟩ : Plane ℚ))
      (Ray.ofReal ⟨0, 0, 0⟩ ⟨0, 0, 1⟩ (Flt.fin 0) (Flt.fin 5))
      ⟨0, 0, Flt.fin 7, true, 0⟩ false) = (false, ⟨0, 0, Flt.fin 7, true, 0⟩) := by
    rw [HitTest_Plane_of_ne _ _ _ _ _ _ _ (by norm_num [Vector3.Dot])]
    norm_num [planeT, Vector3.Dot, Vector3.sub_def]
  rw [ht, hs]
  refine ⟨⟨rfl, rfl, ?_⟩, rfl, rfl, ?_⟩
  · simp [Flt.le_def, Flt.ble]
  · norm_num

/-- Witness of `didHit_t_in_interval`: the ray from the origin along the z axis with interval
`[0, +∞)`, over the real numbers. -/
theorem didHit_t_in_interval_witness :
    (∀ (s : Sphere ℝ) (hr : HitRecord (Flt ℝ)),
      (HitTest_Sphere Real.sqrt s.toFlt (Ray.ofReal ⟨0, 0, 0⟩ ⟨0, 0, 1⟩ (Flt.fin 0) Flt.pinf)
        hr false).2.didHit = true →
      Flt.fin 0 ≤ (HitTest_Sphere Real.sqrt s.toFlt
        (Ray.ofReal ⟨0, 0, 0⟩ ⟨0, 0, 1⟩ (Flt.fin 0) Flt.pinf) hr false).2.t
      ∧ (HitTest_Sphere Real.sqrt s.toFlt
        (Ray.ofReal ⟨0, 0, 0⟩ ⟨0, 0, 1⟩ (Flt.fin 0) Flt.pinf) hr false).2.t ≤ Flt.pinf)
    ∧ (∀ (p : Plane ℝ) (hr : HitRecord (Flt ℝ)),
      (Vector3.Dot (⟨0, 0, 1⟩ : Vector3 ℝ) p.normal = 0 →
        Vector3.Dot (p.origin - ⟨0, 0, 0⟩) p.normal ≠ 0) →
      hr.didHit = false →
      (HitTest_Plane p.toFlt (Ray.ofReal ⟨0, 0, 0⟩ ⟨0, 0, 1⟩ (Flt.fin 0) Flt.pinf)
        hr false).2.didHit = true →
      Flt.fin 0 ≤ (HitTest_Plane p.toFlt
        (Ray.ofReal ⟨0, 0, 0⟩ ⟨0, 0, 1⟩ (Flt.fin 0) Flt.pinf) hr false).2.t
      ∧ (HitTest_Plane p.toFlt
        (Ray.ofReal ⟨0, 0, 0⟩ ⟨0, 0, 1⟩ (Flt.fin 0) Flt.pinf) hr false).2.t ≤ Flt.pinf)
    ∧ (∀ scene : Scene ℝ,
      (GetClosestHit Real.sqrt scene.toFlt
        (Ray.ofReal ⟨0, 0, 0⟩ ⟨0, 0, 1⟩ (Flt.fin 0) Flt.pinf)).didHit = true →
      Flt.fin 0 ≤ (GetClosestHit Real.sqrt scene.toFlt
        (Ray.ofReal ⟨0, 0, 0⟩ ⟨0, 0, 1⟩ (Flt.fin 0) Flt.pinf)).t
      ∧ (GetClosestHit Real.sqrt scene.toFlt
        (Ray.ofReal ⟨0, 0, 0⟩ ⟨0, 0, 1⟩ (Flt.fin 0) Flt.pinf)).t ≤ Flt.pinf) :=
  didHit_t_in_interval Real.sqrt ⟨0, 0, 0⟩ ⟨0, 0, 1⟩ (Flt.fin 0) Flt.pinf (by simp) (by simp)

end dae
